import Mathlib

/-!
Verification development for the Feinschmecker recipe backend.

The definitions below are shallow embeddings of the Python sources:
* `backend/app/services/query_builder.py` (SPARQL query compiler),
* `backend/app/services/recipe_service.py` (result normalizer),
* `backend/app/api/recipes_crud.py` (mutation engine),
* `backend/app/tasks/recipe_tasks.py` and `backend/app/api/recipes.py`
  (task dispatcher, retry policy, worker reload protocol),
* `backend/app/utils/response.py` (response envelopes).

Machine-level collaborators (the SPARQL engine, Celery's retry contract,
Python primitives such as `str.split` or `float`) are modelled explicitly;
every such modelling choice is recorded in the doc comment of the
corresponding definition.
-/

namespace Fein

/-! ## Python string primitives

Executable models of the Python string operations the sources use.
All work on `List Char` so that proofs and witnesses reduce in the kernel. -/

/-- Python `str.lower()` (ASCII case folding, which is all the data uses). -/
def pyLower (s : String) : String :=
  String.mk (s.data.map Char.toLower)

/-- Replace every occurrence of the character `c` by the string `r`
(model of Python `str.replace` for a single-character needle). -/
def replaceChar (c : Char) (r : List Char) (l : List Char) : List Char :=
  l.flatMap (fun x => if x = c then r else [x])

/-- `_sanitize_name` from `recipes_crud.py`:
lowercase, spaces to underscores, `%` to "percent", `&` to "and". -/
def sanitizeName (name : String) : String :=
  String.mk
    (replaceChar '&' ("and".data)
      (replaceChar '%' ("percent".data)
        (replaceChar ' ' ("_".data) ((pyLower name).data))))

/-- Python `str.split(sep)` for a one-character separator
(`"a#b".split("#") == ["a","b"]`, `"".split("#") == [""]`). -/
def pySplitChar (c : Char) : List Char → List (List Char)
  | [] => [[]]
  | x :: xs =>
    match pySplitChar c xs with
    | [] => [[]]
    | y :: ys => if x = c then [] :: y :: ys else (x :: y) :: ys

/-- Strip the leading characters contained in `cs` (Python `str.lstrip(cs)`). -/
def lstripSet (cs : List Char) : List Char → List Char
  | [] => []
  | x :: xs => if x ∈ cs then lstripSet cs xs else x :: xs

/-- Strip the trailing characters contained in `cs` (Python `str.rstrip(cs)`). -/
def rstripSet (cs : List Char) (l : List Char) : List Char :=
  (lstripSet cs l.reverse).reverse

/-- Strip leading and trailing characters in `cs` (Python `str.strip(cs)`). -/
def stripSet (cs : List Char) (l : List Char) : List Char :=
  rstripSet cs (lstripSet cs l)

/-- The whitespace characters Python `str.strip()` removes on this data. -/
def wsChars : List Char := [' ', '\t', '\n', '\r']

/-- Python `str.split(sep)` for a multi-character separator, fuelled by the
input length so the definition is structural and kernel-computable. -/
def pySplitSeqAux (sep : List Char) : Nat → List Char → List (List Char)
  | 0, l => [l]
  | fuel + 1, l =>
    if l = [] then [l]
    else if sep.isPrefixOf l then
      match pySplitSeqAux sep fuel (l.drop sep.length) with
      | [] => [[]]
      | y :: ys => [] :: y :: ys
    else
      match l with
      | [] => [[]]
      | x :: xs =>
        match pySplitSeqAux sep fuel xs with
        | [] => [[]]
        | y :: ys => (x :: y) :: ys

/-- Python `str.split(sep)` for a multi-character separator. -/
def pySplitSeq (sep : List Char) (l : List Char) : List (List Char) :=
  pySplitSeqAux sep l.length l

/-- Digit list to natural number. -/
def digitsToNat (l : List Char) : Nat :=
  l.foldl (fun a c => a * 10 + (c.toNat - 48)) 0

/-- Model of Python `float(s)` for a string argument, covering the decimal
literals the data contains: optional surrounding whitespace, optional sign,
digits with an optional fractional part.  Returns `none` where Python
`float` raises `ValueError`. -/
def pyFloatOfString (s : String) : Option ℚ :=
  let cs := stripSet wsChars s.data
  let core : List Char → Option ℚ := fun l =>
    let intPart := l.takeWhile Char.isDigit
    let rest := l.dropWhile Char.isDigit
    match rest with
    | [] => if intPart = [] then Option.none else some ((digitsToNat intPart : ℤ) : ℚ)
    | '.' :: frac =>
      if frac.all Char.isDigit ∧ (intPart ≠ [] ∨ frac ≠ []) then
        some (((digitsToNat intPart : ℤ) : ℚ) +
          ((digitsToNat frac : ℤ) : ℚ) / ((10 : ℚ) ^ frac.length))
      else Option.none
    | _ => Option.none
  match cs with
  | '-' :: rest => (core rest).map (fun q => -q)
  | '+' :: rest => core rest
  | _ => core cs

/-- Substring test on strings (used to model Python `"x" in s`). -/
def strContains (hay needle : String) : Prop :=
  needle.data <:+: hay.data

instance (hay needle : String) : Decidable (strContains hay needle) :=
  inferInstanceAs (Decidable (needle.data <:+: hay.data))

/-! ## Values and triples

`Value` is the object universe shared by the graph store and the SPARQL
solution bindings: entities (individuals), string / boolean / integer /
float literals.  Python floats are modelled as rationals. -/

inductive Value where
  | ent (e : String)
  | str (s : String)
  | bool (b : Bool)
  | int (n : Int)
  | rat (q : ℚ)
deriving DecidableEq

/-- A triple of the graph store: subject individual, property IRI, object. -/
abbrev Triple := String × String × Value

/-! ## Query compiler (`query_builder.py`)

The normalized filter map the validator hands to `RecipeQueryBuilder`.
Each field is `some v` exactly when the corresponding key is present in
the Python dict.  The service layer validates numeric filter values before
they reach the builder; their decimal rendering is modelled with integer
literals (`time` and `difficulty` are ints in the source; the nutrient
bounds are floats whose textual interpolation works the same way). -/
structure Filters where
  ingredients : Option (List String)
  vegan : Option Bool
  vegetarian : Option Bool
  meal_type : Option String
  time : Option Int
  difficulty : Option Int
  calories_bigger : Option Int
  calories_min : Option Int
  calories_smaller : Option Int
  calories_max : Option Int
  protein_bigger : Option Int
  protein_min : Option Int
  protein_smaller : Option Int
  protein_max : Option Int
  fat_bigger : Option Int
  fat_min : Option Int
  fat_smaller : Option Int
  fat_max : Option Int
  carbohydrates_bigger : Option Int
  carbohydrates_min : Option Int
  carbohydrates_smaller : Option Int
  carbohydrates_max : Option Int

/-- The empty filter map. -/
def Filters.empty : Filters :=
  ⟨Option.none, Option.none, Option.none, Option.none, Option.none, Option.none,
   Option.none, Option.none, Option.none, Option.none, Option.none, Option.none,
   Option.none, Option.none, Option.none, Option.none, Option.none, Option.none,
   Option.none, Option.none, Option.none, Option.none⟩

/-- The four `(bigger, min, smaller, max)` option fields for a nutrient name,
mirroring the key lookups `f"{nutrient}_bigger"` etc. in the source. -/
def Filters.nutrientOpts (f : Filters) :
    String → Option Int × Option Int × Option Int × Option Int
  | "calories" => (f.calories_bigger, f.calories_min, f.calories_smaller, f.calories_max)
  | "protein" => (f.protein_bigger, f.protein_min, f.protein_smaller, f.protein_max)
  | "fat" => (f.fat_bigger, f.fat_min, f.fat_smaller, f.fat_max)
  | "carbohydrates" =>
    (f.carbohydrates_bigger, f.carbohydrates_min, f.carbohydrates_smaller, f.carbohydrates_max)
  | _ => (Option.none, Option.none, Option.none, Option.none)

/-- `self.prefixes` from `RecipeQueryBuilder.__init__`. -/
def prefixesStr : String :=
  "PREFIX rdf: <http://www.w3.org/1999/02/22-rdf-syntax-ns#> " ++
  "PREFIX feinschmecker: <https://jaron.sprute.com/uni/actionable-knowledge-representation/feinschmecker/> "

/-- `select_clause` from `_build_header`. -/
def selectClause : String :=
  "SELECT ?name ?link ?image_link ?instructions " ++
  "(GROUP_CONCAT(?ing_name ; separator = \"#\" ) AS ?ingredients) " ++
  "?vegan ?vegetarian ?type_name ?time_amount ?difficulty_amount "

/-- The four body/filter chunks `_add_ingredient_filters` emits for one
ingredient substring with join-variable suffix `app`. -/
def ingredientChunk (app : String) (ingredient : String) : String :=
  "?res feinschmecker:has_ingredient ?ext_ing" ++ app ++ " . \n" ++
  "?ext_ing" ++ app ++ " feinschmecker:type_of_ingredient ?ing" ++ app ++ " . \n" ++
  "?ing" ++ app ++ " feinschmecker:has_ingredient_name ?ing_name" ++ app ++ " . \n" ++
  "FILTER regex(?ing_name" ++ app ++ ", \"" ++ ingredient ++ "\", \"i\") . \n"

/-- The loop of `_add_ingredient_filters`: `appendum` starts at `"a"` and
grows by one `"a"` per ingredient. -/
def ingredientChunksAux (app : String) : List String → String
  | [] => ""
  | ing :: rest => ingredientChunk app ing ++ ingredientChunksAux (app ++ "a") rest

/-- `_add_ingredient_filters` (run only when the `ingredients` key exists). -/
def ingredientSection (f : Filters) : String :=
  match f.ingredients with
  | Option.none => ""
  | some ings => ingredientChunksAux "a" ings

/-- `_add_dietary_filters`. -/
def dietarySection (f : Filters) : String :=
  (match f.vegan with
   | some b => "?res feinschmecker:is_vegan " ++ (if b then "true" else "false") ++ " . \n"
   | Option.none => "") ++
  "?res feinschmecker:is_vegan ?vegan . \n" ++
  (match f.vegetarian with
   | some b => "?res feinschmecker:is_vegetarian " ++ (if b then "true" else "false") ++ " . \n"
   | Option.none => "") ++
  "?res feinschmecker:is_vegetarian ?vegetarian . \n"

/-- `_add_meal_type_filter`. -/
def mealTypeSection (f : Filters) : String :=
  match f.meal_type with
  | some mt =>
    "?res feinschmecker:is_meal_type ?type . \n" ++
    "?type feinschmecker:has_meal_type_name \"" ++ mt ++ "\" . \n" ++
    "?type feinschmecker:has_meal_type_name ?type_name . \n"
  | Option.none =>
    "OPTIONAL \x7b?res feinschmecker:is_meal_type ?type . \n" ++
    "   ?type feinschmecker:has_meal_type_name ?type_name\x7d. \n"

/-- `_add_time_difficulty_filters`. -/
def timeDifficultySection (f : Filters) : String :=
  "?res feinschmecker:requires_time ?time . \n" ++
  "?time feinschmecker:amount_of_time ?time_amount . \n" ++
  (match f.time with
   | some t => "FILTER (?time_amount < " ++ toString t ++ ") . \n"
   | Option.none => "") ++
  "?res feinschmecker:has_difficulty ?difficulty . \n" ++
  "?difficulty feinschmecker:has_numeric_difficulty ?difficulty_amount . \n" ++
  (match f.difficulty with
   | some d => "FILTER (?difficulty_amount = " ++ toString d ++ ") . \n"
   | Option.none => "")

/-- `_add_nutrient_filter` body chunks for one nutrient (the method also
appends `?{nutrient}_amount ` to the header, see `finalHeader`). -/
def nutrientChunk (n : String) (opts : Option Int × Option Int × Option Int × Option Int) :
    String :=
  "?res feinschmecker:has_" ++ n ++ " ?" ++ n ++ " . \n" ++
  "?" ++ n ++ " feinschmecker:amount_of_" ++ n ++ " ?" ++ n ++ "_amount . \n" ++
  (match opts.1, opts.2.1 with
   | some v, _ => "FILTER (?" ++ n ++ "_amount > " ++ toString v ++ ") . \n"
   | Option.none, some v => "FILTER (?" ++ n ++ "_amount > " ++ toString v ++ ") . \n"
   | Option.none, Option.none => "") ++
  (match opts.2.2.1, opts.2.2.2 with
   | some v, _ => "FILTER (?" ++ n ++ "_amount < " ++ toString v ++ ") . \n"
   | Option.none, some v => "FILTER (?" ++ n ++ "_amount < " ++ toString v ++ ") . \n"
   | Option.none, Option.none => "")

/-- `_add_nutrient_filters`: the loop over the four nutrients. -/
def nutrientSection (f : Filters) : String :=
  nutrientChunk "calories" (f.nutrientOpts "calories") ++
  nutrientChunk "protein" (f.nutrientOpts "protein") ++
  nutrientChunk "fat" (f.nutrientOpts "fat") ++
  nutrientChunk "carbohydrates" (f.nutrientOpts "carbohydrates")

/-- `_add_required_fields` body chunks (the method also appends
`" ?author_name ?source_name ?source_link"` to the header). -/
def requiredSection : String :=
  "?res feinschmecker:has_link ?link . \n" ++
  "?res feinschmecker:has_image_link ?image_link . \n" ++
  "?res feinschmecker:has_recipe_name ?name . \n" ++
  "?res feinschmecker:has_instructions ?instructions . \n" ++
  "?res feinschmecker:has_ingredient ?ing . \n" ++
  "?ing feinschmecker:has_ingredient_with_amount_name ?ing_name . \n" ++
  "?res feinschmecker:authored_by ?author . \n" ++
  "?author feinschmecker:has_author_name ?author_name . \n" ++
  "?author feinschmecker:is_author_of ?source . \n" ++
  "?source feinschmecker:has_source_name ?source_name . \n" ++
  "?source feinschmecker:is_website ?source_link . \n"

/-- `_build_group_by`. -/
def groupByStr : String :=
  "GROUP BY ?name ?link ?image_link ?instructions ?vegan ?vegetarian " ++
  "?type_name ?time_amount ?difficulty_amount ?calories_amount " ++
  "?protein_amount ?fat_amount ?carbohydrates_amount " ++
  "?author_name ?source_name ?source_link"

/-- The WHERE block built by `_build_body` before the GROUP BY clause is
appended: opening brace, the mandatory `rdf:type` pattern, the filter
sections in source order, closing brace. -/
def bodyCore (f : Filters) : String :=
  "\x7b?res rdf:type feinschmecker:Recipe . \n" ++
  ingredientSection f ++
  dietarySection f ++
  mealTypeSection f ++
  timeDifficultySection f ++
  nutrientSection f ++
  requiredSection ++
  "\x7d"

/-- `self.body` at the end of `_build_body` (GROUP BY appended). -/
def builtBody (f : Filters) : String :=
  bodyCore f ++ groupByStr

/-- `self.header` at the end of `_build_body`: `_build_header` sets
`prefixes + select_clause`; each `_add_nutrient_filter` call appends
`?{nutrient}_amount ` and `_add_required_fields` appends the
author/source variables. -/
def finalHeader : String :=
  prefixesStr ++ selectClause ++
  "?calories_amount " ++ "?protein_amount " ++ "?fat_amount " ++ "?carbohydrates_amount " ++
  " ?author_name ?source_name ?source_link"

/-- `RecipeQueryBuilder.build_query(filters, limit, offset)`. -/
def build_query (f : Filters) (limit offset : Option Int) : String :=
  let query := finalHeader ++ " " ++ builtBody f
  let query := match limit with
    | some l => query ++ " LIMIT " ++ toString l
    | Option.none => query
  match offset with
  | some o => query ++ " OFFSET " ++ toString o
  | Option.none => query

/-- The count query header from `build_count_query`. -/
def countHeader : String :=
  prefixesStr ++ "SELECT (COUNT(DISTINCT ?res) AS ?count) "

/-- `build_count_query(filters)`.  The Python builds the same body via
`_build_body` and then strips everything from the first occurrence of the
substring `"GROUP BY"` on (`body.split("GROUP BY")[0]`).  Because
`_build_body` appends `_build_group_by()` last and that clause starts with
the marker, the split returns exactly the WHERE block `bodyCore` whenever
no interpolated filter value itself contains the marker (the injection
caveat of the spec); the split is modelled at that chunk level. -/
def build_count_query (f : Filters) : String :=
  countHeader ++ bodyCore f

/-- No interpolated filter value contains the `"GROUP BY"` marker, so the
string split in `build_count_query` cuts exactly at the appended GROUP BY
clause.  (Only string-valued filters can carry the marker.) -/
def Filters.groupByClean (f : Filters) : Prop :=
  (∀ ings, f.ingredients = some ings → ∀ i ∈ ings, ¬ strContains i "GROUP BY") ∧
  (∀ mt, f.meal_type = some mt → ¬ strContains mt "GROUP BY")

/-! ## Abstract syntax of the generated WHERE block

The builder emits plain text; to reason about what the SPARQL engine does
with it, the same block is also described as a pattern list whose rendering
is proved (below) to be exactly the emitted text.  A term is a SPARQL
variable or a constant; a pattern is a triple pattern, one of the emitted
FILTER forms, or the single two-triple OPTIONAL group of the meal-type
section. -/

inductive Term where
  | var (x : String)
  | ent (e : String)
  | litB (b : Bool)
  | litS (s : String)
deriving DecidableEq

inductive Pat where
  | triple (s : Term) (p : String) (o : Term)
  | filterRegexCI (x : String) (pat : String)
  | filterLt (x : String) (bound : Int)
  | filterGt (x : String) (bound : Int)
  | filterEqI (x : String) (bound : Int)
  | optional2 (s1 : Term) (p1 : String) (o1 : Term) (s2 : Term) (p2 : String) (o2 : Term)
deriving DecidableEq

/-- Textual form of a term in the generated query. -/
def renderTerm : Term → String
  | Term.var x => "?" ++ x
  | Term.ent e => e
  | Term.litB b => if b then "true" else "false"
  | Term.litS s => "\"" ++ s ++ "\""

/-- Textual form of a pattern, matching the builder's chunks verbatim. -/
def renderPat : Pat → String
  | Pat.triple s p o => renderTerm s ++ " " ++ p ++ " " ++ renderTerm o ++ " . \n"
  | Pat.filterRegexCI x pat => "FILTER regex(?" ++ x ++ ", \"" ++ pat ++ "\", \"i\") . \n"
  | Pat.filterLt x b => "FILTER (?" ++ x ++ " < " ++ toString b ++ ") . \n"
  | Pat.filterGt x b => "FILTER (?" ++ x ++ " > " ++ toString b ++ ") . \n"
  | Pat.filterEqI x b => "FILTER (?" ++ x ++ " = " ++ toString b ++ ") . \n"
  | Pat.optional2 s1 p1 o1 s2 p2 o2 =>
    "OPTIONAL \x7b" ++ renderTerm s1 ++ " " ++ p1 ++ " " ++ renderTerm o1 ++ " . \n" ++
    "   " ++ renderTerm s2 ++ " " ++ p2 ++ " " ++ renderTerm o2 ++ "\x7d. \n"

/-- The four patterns of one ingredient filter (suffix `app`). -/
def ingredientPats (app : String) (ingredient : String) : List Pat :=
  [Pat.triple (Term.var "res") "feinschmecker:has_ingredient" (Term.var ("ext_ing" ++ app)),
   Pat.triple (Term.var ("ext_ing" ++ app)) "feinschmecker:type_of_ingredient"
     (Term.var ("ing" ++ app)),
   Pat.triple (Term.var ("ing" ++ app)) "feinschmecker:has_ingredient_name"
     (Term.var ("ing_name" ++ app)),
   Pat.filterRegexCI ("ing_name" ++ app) ingredient]

def ingredientPatsAux (app : String) : List String → List Pat
  | [] => []
  | ing :: rest => ingredientPats app ing ++ ingredientPatsAux (app ++ "a") rest

def ingredientSectionPats (f : Filters) : List Pat :=
  match f.ingredients with
  | Option.none => []
  | some ings => ingredientPatsAux "a" ings

def dietarySectionPats (f : Filters) : List Pat :=
  (match f.vegan with
   | some b => [Pat.triple (Term.var "res") "feinschmecker:is_vegan" (Term.litB b)]
   | Option.none => []) ++
  [Pat.triple (Term.var "res") "feinschmecker:is_vegan" (Term.var "vegan")] ++
  (match f.vegetarian with
   | some b => [Pat.triple (Term.var "res") "feinschmecker:is_vegetarian" (Term.litB b)]
   | Option.none => []) ++
  [Pat.triple (Term.var "res") "feinschmecker:is_vegetarian" (Term.var "vegetarian")]

def mealTypeSectionPats (f : Filters) : List Pat :=
  match f.meal_type with
  | some mt =>
    [Pat.triple (Term.var "res") "feinschmecker:is_meal_type" (Term.var "type"),
     Pat.triple (Term.var "type") "feinschmecker:has_meal_type_name" (Term.litS mt),
     Pat.triple (Term.var "type") "feinschmecker:has_meal_type_name" (Term.var "type_name")]
  | Option.none =>
    [Pat.optional2 (Term.var "res") "feinschmecker:is_meal_type" (Term.var "type")
       (Term.var "type") "feinschmecker:has_meal_type_name" (Term.var "type_name")]

def timeDifficultySectionPats (f : Filters) : List Pat :=
  [Pat.triple (Term.var "res") "feinschmecker:requires_time" (Term.var "time"),
   Pat.triple (Term.var "time") "feinschmecker:amount_of_time" (Term.var "time_amount")] ++
  (match f.time with
   | some t => [Pat.filterLt "time_amount" t]
   | Option.none => []) ++
  [Pat.triple (Term.var "res") "feinschmecker:has_difficulty" (Term.var "difficulty"),
   Pat.triple (Term.var "difficulty") "feinschmecker:has_numeric_difficulty"
     (Term.var "difficulty_amount")] ++
  (match f.difficulty with
   | some d => [Pat.filterEqI "difficulty_amount" d]
   | Option.none => [])

def nutrientPats (n : String) (opts : Option Int × Option Int × Option Int × Option Int) :
    List Pat :=
  [Pat.triple (Term.var "res") ("feinschmecker:has_" ++ n) (Term.var n),
   Pat.triple (Term.var n) ("feinschmecker:amount_of_" ++ n) (Term.var (n ++ "_amount"))] ++
  (match opts.1, opts.2.1 with
   | some v, _ => [Pat.filterGt (n ++ "_amount") v]
   | Option.none, some v => [Pat.filterGt (n ++ "_amount") v]
   | Option.none, Option.none => []) ++
  (match opts.2.2.1, opts.2.2.2 with
   | some v, _ => [Pat.filterLt (n ++ "_amount") v]
   | Option.none, some v => [Pat.filterLt (n ++ "_amount") v]
   | Option.none, Option.none => [])

def nutrientSectionPats (f : Filters) : List Pat :=
  nutrientPats "calories" (f.nutrientOpts "calories") ++
  nutrientPats "protein" (f.nutrientOpts "protein") ++
  nutrientPats "fat" (f.nutrientOpts "fat") ++
  nutrientPats "carbohydrates" (f.nutrientOpts "carbohydrates")

def requiredSectionPats : List Pat :=
  [Pat.triple (Term.var "res") "feinschmecker:has_link" (Term.var "link"),
   Pat.triple (Term.var "res") "feinschmecker:has_image_link" (Term.var "image_link"),
   Pat.triple (Term.var "res") "feinschmecker:has_recipe_name" (Term.var "name"),
   Pat.triple (Term.var "res") "feinschmecker:has_instructions" (Term.var "instructions"),
   Pat.triple (Term.var "res") "feinschmecker:has_ingredient" (Term.var "ing"),
   Pat.triple (Term.var "ing") "feinschmecker:has_ingredient_with_amount_name"
     (Term.var "ing_name"),
   Pat.triple (Term.var "res") "feinschmecker:authored_by" (Term.var "author"),
   Pat.triple (Term.var "author") "feinschmecker:has_author_name" (Term.var "author_name"),
   Pat.triple (Term.var "author") "feinschmecker:is_author_of" (Term.var "source"),
   Pat.triple (Term.var "source") "feinschmecker:has_source_name" (Term.var "source_name"),
   Pat.triple (Term.var "source") "feinschmecker:is_website" (Term.var "source_link")]

/-- The full pattern list of the generated WHERE block, in emission order. -/
def bodyPats (f : Filters) : List Pat :=
  [Pat.triple (Term.var "res") "rdf:type" (Term.ent "feinschmecker:Recipe")] ++
  ingredientSectionPats f ++
  dietarySectionPats f ++
  mealTypeSectionPats f ++
  timeDifficultySectionPats f ++
  nutrientSectionPats f ++
  requiredSectionPats

/-! ## SPARQL evaluation model

Semantics of the generated queries, modelling the owlready2 SPARQL engine
on the pattern shapes the builder emits: a solution is a variable binding
produced by matching every pattern against the store; the OPTIONAL group
keeps the binding unchanged when no extension matches (left join).  The
regex matcher of `FILTER regex(.., .., "i")` is an engine capability and
is therefore a parameter `rx` of the evaluator. -/

/-- A solution binding: variable name to value, most recent first. -/
abbrev Binding := List (String × Value)

def lookupVar : Binding → String → Option Value
  | [], _ => Option.none
  | (y, v) :: b, x => if y = x then some v else lookupVar b x

/-- Match a term against a value, extending the binding at an unbound
variable and checking consistency at a bound one. -/
def matchTerm (b : Binding) : Term → Value → Option Binding
  | Term.var x, v =>
    match lookupVar b x with
    | some w => if w = v then some b else Option.none
    | Option.none => some ((x, v) :: b)
  | Term.ent e, v => if v = Value.ent e then some b else Option.none
  | Term.litB bo, v => if v = Value.bool bo then some b else Option.none
  | Term.litS s, v => if v = Value.str s then some b else Option.none

/-- Match a triple pattern against one store triple. -/
def matchTriple (b : Binding) (s : Term) (p : String) (o : Term) (t : Triple) :
    Option Binding :=
  if p = t.2.1 then
    match matchTerm b s (Value.ent t.1) with
    | some b1 => matchTerm b1 o t.2.2
    | Option.none => Option.none
  else Option.none

/-- SPARQL numeric comparison of a bound value against an integer bound. -/
def valLt (v : Value) (bound : Int) : Bool :=
  match v with
  | Value.int n => n < bound
  | Value.rat q => q < (bound : ℚ)
  | _ => false

def valGt (v : Value) (bound : Int) : Bool :=
  match v with
  | Value.int n => bound < n
  | Value.rat q => (bound : ℚ) < q
  | _ => false

def valEqI (v : Value) (bound : Int) : Bool :=
  match v with
  | Value.int n => n = bound
  | Value.rat q => q = (bound : ℚ)
  | _ => false

/-- All extensions of `b` matching the triple pattern somewhere in `T`. -/
def matchTripleAll (T : List Triple) (b : Binding) (s : Term) (p : String) (o : Term) :
    List Binding :=
  T.filterMap (fun t => matchTriple b s p o t)

/-- Evaluate one pattern against a list of candidate bindings. -/
def evalPat (rx : String → String → Bool) (T : List Triple) :
    Pat → List Binding → List Binding
  | Pat.triple s p o, bs => bs.flatMap (fun b => matchTripleAll T b s p o)
  | Pat.filterRegexCI x pat, bs =>
    bs.filter (fun b =>
      match lookupVar b x with
      | some (Value.str s) => rx s pat
      | _ => false)
  | Pat.filterLt x bound, bs =>
    bs.filter (fun b =>
      match lookupVar b x with
      | some v => valLt v bound
      | Option.none => false)
  | Pat.filterGt x bound, bs =>
    bs.filter (fun b =>
      match lookupVar b x with
      | some v => valGt v bound
      | Option.none => false)
  | Pat.filterEqI x bound, bs =>
    bs.filter (fun b =>
      match lookupVar b x with
      | some v => valEqI v bound
      | Option.none => false)
  | Pat.optional2 s1 p1 o1 s2 p2 o2, bs =>
    bs.flatMap (fun b =>
      if ((matchTripleAll T b s1 p1 o1).flatMap
          (fun b1 => matchTripleAll T b1 s2 p2 o2)).isEmpty then [b]
      else (matchTripleAll T b s1 p1 o1).flatMap
        (fun b1 => matchTripleAll T b1 s2 p2 o2))

/-- Evaluate a pattern list left to right. -/
def evalPats (rx : String → String → Bool) (T : List Triple) :
    List Pat → List Binding → List Binding
  | [], bs => bs
  | p :: ps, bs => evalPats rx T ps (evalPat rx T p bs)

/-- The solutions of the generated WHERE block over store `T`. -/
def solutions (rx : String → String → Bool) (T : List Triple) (f : Filters) :
    List Binding :=
  evalPats rx T (bodyPats f) [([] : Binding)]

/-- The variables of the result query's GROUP BY clause, in order. -/
def groupKeyVars : List String :=
  ["name", "link", "image_link", "instructions", "vegan", "vegetarian",
   "type_name", "time_amount", "difficulty_amount", "calories_amount",
   "protein_amount", "fat_amount", "carbohydrates_amount",
   "author_name", "source_name", "source_link"]

/-- The group key of one solution (an unbound variable groups as `none`). -/
def groupKey (b : Binding) : List (Option Value) :=
  groupKeyVars.map (lookupVar b)

/-- Number of rows of the result query when executed without LIMIT/OFFSET:
grouping by every projected scalar yields one row per distinct group key. -/
def resultRowCount (rx : String → String → Bool) (T : List Triple) (f : Filters) : Nat :=
  ((solutions rx T f).map groupKey).dedup.length

/-- Value of the count query: `COUNT(DISTINCT ?res)` over the same WHERE
block, i.e. the number of distinct `?res` bindings among the solutions. -/
def countDistinctRes (rx : String → String → Bool) (T : List Triple) (f : Filters) : Nat :=
  ((solutions rx T f).map (fun b => lookupVar b "res")).dedup.length

/-! ## Result normalizer (`recipe_service.py`)

`_transform_results` receives the raw SPARQL rows (positional tuples of
`Value`s) and produces dictionaries whose values may additionally be
Python lists of strings after normalization. -/

inductive PyVal where
  | ent (e : String)
  | str (s : String)
  | bool (b : Bool)
  | int (n : Int)
  | rat (q : ℚ)
  | listS (l : List String)
deriving DecidableEq

def Value.toPy : Value → PyVal
  | Value.ent e => PyVal.ent e
  | Value.str s => PyVal.str s
  | Value.bool b => PyVal.bool b
  | Value.int n => PyVal.int n
  | Value.rat q => PyVal.rat q

/-- `field_order` from `_transform_results`. -/
def fieldOrder : List String :=
  ["name", "link", "image_link", "instructions", "ingredients",
   "vegan", "vegetarian", "meal_type", "time", "difficulty",
   "calories", "protein", "fat", "carbohydrates",
   "author", "source_name", "source_link"]

/-- `RecipeService._parse_boolean`.  The final `bool(value)` case is Python
truthiness of the remaining value shapes. -/
def parse_boolean : PyVal → Bool
  | PyVal.bool b => b
  | PyVal.str s => pyLower s ∈ (["true", "1", "yes"] : List String)
  | PyVal.int n => n ≠ 0
  | PyVal.rat q => q ≠ 0
  | PyVal.listS l => l ≠ []
  | PyVal.ent _ => true

/-- `RecipeService._parse_number`: Python `float(value)` with `0.0` on
`ValueError`/`TypeError`.  `float` accepts numbers, booleans and numeric
strings; every other shape raises and yields the fallback. -/
def parse_number (v : PyVal) : ℚ :=
  match v with
  | PyVal.int n => (n : ℚ)
  | PyVal.rat q => q
  | PyVal.bool b => if b then 1 else 0
  | PyVal.str s =>
    match pyFloatOfString s with
    | some q => q
    | Option.none => 0
  | PyVal.ent _ => 0
  | PyVal.listS _ => 0

/-- The shapes Python `float` fails on (where `_parse_number` returns its
`0.0` fallback rather than a parse). -/
def pyFloatFails : PyVal → Bool
  | PyVal.str s => (pyFloatOfString s).isNone
  | PyVal.ent _ => true
  | PyVal.listS _ => true
  | _ => false

/-- `RecipeService._parse_instructions`: strip outer bracket/quote
characters, split on the `"', '"` delimiter, strip a leading run of
characters from "step " and of digits, trim, drop empties. -/
def parse_instructions (s : String) : List String :=
  let cleaned := stripSet ['[', ']', '\'', '\"'] s.data
  let steps := pySplitSeq ['\'', ',', ' ', '\''] cleaned
  (steps.map (fun st =>
    stripSet wsChars (lstripSet ['0','1','2','3','4','5','6','7','8','9']
      (lstripSet ['s','t','e','p',' '] st)))).filterMap
    (fun st => if st = [] then Option.none else some (String.mk st))

/-- `split('#')` on the aggregated ingredient string. -/
def splitHash (s : String) : List String :=
  (pySplitChar '#' s.data).map String.mk

/-- One key-value step of `RecipeService._normalize_recipe`; the source
mutates the dict per key, with the string-only guards (`isinstance(.., str)`)
on `instructions` and `ingredients`. -/
def normalizeEntry : String × PyVal → String × PyVal
  | ("instructions", PyVal.str s) => ("instructions", PyVal.listS (parse_instructions s))
  | ("ingredients", PyVal.str s) => ("ingredients", PyVal.listS (splitHash s))
  | ("vegan", v) => ("vegan", PyVal.bool (parse_boolean v))
  | ("vegetarian", v) => ("vegetarian", PyVal.bool (parse_boolean v))
  | ("time", v) => ("time", PyVal.rat (parse_number v))
  | ("difficulty", v) => ("difficulty", PyVal.rat (parse_number v))
  | ("calories", v) => ("calories", PyVal.rat (parse_number v))
  | ("protein", v) => ("protein", PyVal.rat (parse_number v))
  | ("fat", v) => ("fat", PyVal.rat (parse_number v))
  | ("carbohydrates", v) => ("carbohydrates", PyVal.rat (parse_number v))
  | e => e

/-- `RecipeService._normalize_recipe` over the whole dict (the keys are
pairwise distinct, so the per-key mutations are an entrywise map). -/
def normalize_recipe (r : List (String × PyVal)) : List (String × PyVal) :=
  r.map normalizeEntry

/-- `RecipeService._transform_results`: positional columns are mapped to
the named fields of `field_order`; a row with fewer columns simply omits
the remaining fields (`if i < len(result)`). -/
def transform_results (rows : List (List Value)) : List (List (String × PyVal)) :=
  rows.map (fun row => normalize_recipe ((fieldOrder.zip row).map
    (fun kv => (kv.1, kv.2.toPy))))

/-! ## Response envelopes (`response.py`) -/

structure ErrorBody where
  code : String
  message : String
  details : List String
  status : Nat
deriving DecidableEq

inductive RData where
  | obj (fields : List (String × String))
  | recipesList (rs : List (List (String × PyVal)))
  | noneD
deriving DecidableEq

inductive Resp where
  | success (data : RData) (meta : Option (Nat × Nat × Nat)) (message : Option String)
  | error (e : ErrorBody)
deriving DecidableEq

/-- `error_response(message, code, details, status_code)`. -/
def error_response (message code : String) (details : List String) (status : Nat) : Resp :=
  Resp.error ⟨code, message, details, status⟩

/-- `validation_error_response(errors)`: field errors flattened into
`"field: message"` detail strings, code `VALIDATION_ERROR`, HTTP 400. -/
def validation_error_response (errors : List (String × String)) : Resp :=
  error_response "Validation failed" "VALIDATION_ERROR"
    (errors.map (fun p => p.1 ++ ": " ++ p.2)) 400

/-- `internal_error_response(message)`: note the function takes no
`details` parameter. -/
def internal_error_response (message : String) : Resp :=
  error_response message "INTERNAL_ERROR" [] 500

def Resp.isSuccess : Resp → Bool
  | Resp.success _ _ _ => true
  | Resp.error _ => false

/-! ## Mutation engine (`recipes_crud.py`)

The owlready2 world is modelled as a list of named, typed individuals
plus a list of property triples.  `onto[name]` is a lookup by name alone
(`_get_individual` performs no type check); `destroy_entity` removes an
individual together with every triple that mentions it. -/

structure Onto where
  classes : List String
  inds : List (String × String)
  props : List Triple
deriving DecidableEq

/-- `_get_individual(onto, identifier)`: name lookup, type-unaware. -/
def Onto.getInd (o : Onto) (name : String) : Option (String × String) :=
  o.inds.find? (fun p => p.1 = name)

def Onto.hasInd (o : Onto) (name : String) : Bool :=
  (o.getInd name).isSome

def Onto.addInd (o : Onto) (name cls : String) : Onto :=
  ⟨o.classes, o.inds ++ [(name, cls)], o.props⟩

def Onto.addProp (o : Onto) (s p : String) (v : Value) : Onto :=
  ⟨o.classes, o.inds, o.props ++ [(s, p, v)]⟩

/-- The values of property `p` on individual `s`. -/
def Onto.propVals (o : Onto) (s p : String) : List Value :=
  o.props.filterMap (fun t => if t.1 = s ∧ t.2.1 = p then some t.2.2 else Option.none)

/-- Detach every link of property `p` from `s` (the sources iterate over
`list(getattr(ind, p))` and `remove` each old value). -/
def Onto.removeProps (o : Onto) (s p : String) : Onto :=
  ⟨o.classes, o.inds, o.props.filter (fun t => ¬ (t.1 = s ∧ t.2.1 = p))⟩

/-- Replace the links of property `p` on `s` (owlready list assignment
`ind.p = [v]`). -/
def Onto.setProp (o : Onto) (s p : String) (vs : List Value) : Onto :=
  let o1 := o.removeProps s p
  vs.foldl (fun acc v => acc.addProp s p v) o1

/-- `ind = Cls(name)`: owlready returns the existing individual when the
name is taken, otherwise creates a fresh one of the class. -/
def Onto.getOrCreate (o : Onto) (name cls : String) : Onto :=
  if o.hasInd name then o else o.addInd name cls

/-- Append `v` to property `p` of `s` only when `p` has no value yet
(the pervasive `if hasattr(..) and not getattr(..)` guard). -/
def Onto.addPropIfEmpty (o : Onto) (s p : String) (v : Value) : Onto :=
  if o.propVals s p = [] then o.addProp s p v else o

/-- `destroy_entity(ind)`: the individual disappears and every triple with
it as subject or object is cleaned up (cascading reference cleanup). -/
def destroyEntity (o : Onto) (name : String) : Onto :=
  ⟨o.classes,
   o.inds.filter (fun p => p.1 ≠ name),
   o.props.filter (fun t => t.1 ≠ name ∧ t.2.2 ≠ Value.ent name)⟩

/-- Number of triples that reference individual `name` as an object
(its inbound references). -/
def inboundRefs (o : Onto) (name : String) : Nat :=
  (o.props.filter (fun t => t.2.2 = Value.ent name)).length

/-- Application configuration relevant to the CRUD endpoints. -/
structure CrudConfig where
  ontologyLocalPath : Option String
  createPlaceholders : Bool
deriving DecidableEq

/-- Outcome of one mutation request: the HTTP response, the resulting
in-memory world, whether the store was durably persisted (temp-file write
plus atomic rename succeeded), and whether the version coordinator was
signalled (`_publish_version_to_redis` invoked). -/
structure MutationOutcome where
  resp : Resp
  onto : Option Onto
  persisted : Bool
  published : Bool
deriving DecidableEq

/-- The persist-then-publish tail shared verbatim by the three handlers:
when `ONTOLOGY_LOCAL_PATH` is configured the world is saved to a temp file
and atomically renamed over the backing file - on failure the handler
returns `PERSIST_FAILED` (HTTP 500) instead of the success response; when
no path is configured the persist block is skipped entirely.  On every
non-error path the handler then calls `_publish_version_to_redis`. -/
def persistTail (cfg : CrudConfig) (persistOk : Bool) (o1 : Onto) (succ : Resp) :
    MutationOutcome :=
  match cfg.ontologyLocalPath with
  | some _ =>
    if persistOk then ⟨succ, some o1, true, true⟩
    else ⟨error_response "Failed to persist ontology to disk" "PERSIST_FAILED" [] 500,
          some o1, false, false⟩
  | Option.none => ⟨succ, some o1, false, true⟩

/-- The `ingredients` payload value: the handlers accept a list or a
string (a string is iterated character by character by the `for` loop). -/
inductive IngField where
  | list (l : List String)
  | strv (s : String)
deriving DecidableEq

def IngField.items : IngField → List String
  | IngField.list l => l
  | IngField.strv s => s.data.map (fun c => String.mk [c])

/-- A JSON mutation payload, one optional field per recognized key.
Nutrient values and time/difficulty are modelled as integers (the source
coerces them with `int(..)` / `float(..)` and interpolates them into
individual names). -/
structure CrudData where
  title : Option String
  instructions : Option String
  ingredients : Option IngField
  link : Option String
  image_link : Option String
  vegan : Option Bool
  vegetarian : Option Bool
  time : Option Int
  difficulty : Option Int
  meal_type : Option String
  calories : Option Int
  protein : Option Int
  fat : Option Int
  carbohydrates : Option Int
  author : Option String
  source_name : Option String
  source_link : Option String
deriving DecidableEq

def CrudData.empty : CrudData :=
  ⟨Option.none, Option.none, Option.none, Option.none, Option.none, Option.none,
   Option.none, Option.none, Option.none, Option.none, Option.none, Option.none,
   Option.none, Option.none, Option.none, Option.none, Option.none⟩

/-- Truthiness of an optional string after `str(..).strip()`
(`bool(data.get(k) and str(data.get(k)).strip())`). -/
def strTruthyStripped : Option String → Bool
  | some s => s ≠ "" ∧ String.mk (stripSet wsChars s.data) ≠ ""
  | Option.none => false

/-- `has_instructions` / `has_ingredients` / `has_link` from the
create-validation block. -/
def hasIngredientsCheck : Option IngField → Bool
  | some (IngField.list l) => l ≠ []
  | some (IngField.strv s) => s ≠ "" ∧ String.mk (stripSet wsChars s.data) ≠ ""
  | Option.none => false

/-- Whitespace split discarding empty parts (Python `str.split()`). -/
def pySplitWsAux : List Char → List Char → List (List Char)
  | [], acc => if acc = [] then [] else [acc.reverse]
  | c :: rest, acc =>
    if c ∈ wsChars then
      (if acc = [] then pySplitWsAux rest [] else acc.reverse :: pySplitWsAux rest [])
    else pySplitWsAux rest (c :: acc)

def pySplitWs (l : List Char) : List (List Char) :=
  pySplitWsAux l []

structure ParsedIng where
  amount : Option ℚ
  unitStr : Option String
  name : String

/-- The loose amount/unit/name parse of one ingredient string shared by
`create_recipe` and `update_recipe`. -/
def parseIngredientText (ing_text : String) : ParsedIng :=
  let parts := (pySplitWs ing_text.data).map String.mk
  match parts with
  | [] => ⟨Option.none, Option.none, ing_text⟩
  | p0 :: ptail =>
    let ar : Option ℚ × List String :=
      match pyFloatOfString p0 with
      | some q => (some q, ptail)
      | Option.none => (Option.none, p0 :: ptail)
    match ar.2 with
    | [] => ⟨ar.1, Option.none, ing_text⟩
    | r0 :: rtail =>
      let isUnit := r0.length ≤ 4 ∧ r0.data.all Char.isAlpha
      let nameParts := if isUnit then rtail else r0 :: rtail
      let unit : Option String := if isUnit then some r0 else Option.none
      let name := if nameParts = [] then ing_text else String.intercalate " " nameParts
      ⟨ar.1, unit, name⟩

/-- The ingredient block shared by create and update: get-or-create the
base `Ingredient` by sanitized name, get-or-create the
`IngredientWithAmount` by sanitized full text, fill its name/amount/unit,
link it to the base ingredient and to the recipe. -/
def addIngredientToRecipe (recipeName : String) (o : Onto) (ing_text : String) : Onto :=
  let p := parseIngredientText ing_text
  let step1 : Onto × Option String :=
    if "Ingredient" ∈ o.classes then
      let iname := sanitizeName p.name
      let o1 := o.getOrCreate iname "Ingredient"
      let o2 := o1.addPropIfEmpty iname "has_ingredient_name" (Value.str p.name)
      (o2, some iname)
    else (o, Option.none)
  let o := step1.1
  if "IngredientWithAmount" ∈ o.classes then
    let wname := sanitizeName ing_text
    let o := o.getOrCreate wname "IngredientWithAmount"
    let o := o.addPropIfEmpty wname "has_ingredient_with_amount_name" (Value.str ing_text)
    let o := match p.amount with
      | some q => o.addProp wname "amount_of_ingredient" (Value.rat q)
      | Option.none => o
    let o := match p.unitStr with
      | some u => if u ≠ "" then o.addProp wname "unit_of_ingredient" (Value.str u) else o
      | Option.none => o
    let o := match step1.2 with
      | some iname => o.addProp wname "type_of_ingredient" (Value.ent iname)
      | Option.none => o
    o.addProp recipeName "has_ingredient" (Value.ent wname)
  else o

/-- The `(class, property, amount-property, payload-field)` rows of the
`NutrientsMap` table. -/
def nutrientsMap : List (String × String × String × String) :=
  [("Calories", "has_calories", "amount_of_calories", "calories"),
   ("Protein", "has_protein", "amount_of_protein", "protein"),
   ("Fat", "has_fat", "amount_of_fat", "fat"),
   ("Carbohydrates", "has_carbohydrates", "amount_of_carbohydrates", "carbohydrates")]

def CrudData.nutrientField (d : CrudData) : String → Option Int
  | "calories" => d.calories
  | "protein" => d.protein
  | "fat" => d.fat
  | "carbohydrates" => d.carbohydrates
  | _ => Option.none

/-- create: instructions (provided text, or the '' placeholder). -/
def createInstructions (o : Onto) (d : CrudData) (localName : String) : Onto :=
  match d.instructions with
  | some s => if s ≠ "" then o.addProp localName "has_instructions" (Value.str s)
              else o.addPropIfEmpty localName "has_instructions" (Value.str "")
  | Option.none => o.addPropIfEmpty localName "has_instructions" (Value.str "")

/-- create: Time is always a fresh individual, its name uniquified with
the clock on a collision. -/
def createTime (o : Onto) (d : CrudData) (localName : String) (now : Int) : Onto :=
  match d.time with
  | some t =>
    if "Time" ∈ o.classes then
      let tname := "time_" ++ toString t
      let tinstName := if o.hasInd tname then tname ++ "_" ++ toString now else tname
      let o := o.getOrCreate tinstName "Time"
      let o := o.addProp tinstName "amount_of_time" (Value.int t)
      o.addProp localName "requires_time" (Value.ent tinstName)
    else o
  | Option.none => o

/-- create: Difficulty reuses the shared difficulty individual if present. -/
def createDifficulty (o : Onto) (d : CrudData) (localName : String) : Onto :=
  match d.difficulty with
  | some dv =>
    if "Difficulty" ∈ o.classes then
      let dname := "difficulty_" ++ toString dv
      let o := o.getOrCreate dname "Difficulty"
      let o := o.addPropIfEmpty dname "has_numeric_difficulty" (Value.int dv)
      o.addProp localName "has_difficulty" (Value.ent dname)
    else o
  | Option.none => o

/-- create/update: meal type (only when the value is truthy). -/
def createMealType (o : Onto) (d : CrudData) (localName : String) : Onto :=
  match d.meal_type with
  | some mt =>
    if mt ≠ "" ∧ "MealType" ∈ o.classes then
      let mtname := sanitizeName mt
      let o := o.getOrCreate mtname "MealType"
      let o := o.addPropIfEmpty mtname "has_meal_type_name" (Value.str mt)
      o.addProp localName "is_meal_type" (Value.ent mtname)
    else o
  | Option.none => o

/-- create: ingredients loop, or the opt-in placeholder ingredient. -/
def createIngredients (cfg : CrudConfig) (o : Onto) (d : CrudData) (localName : String) :
    Onto :=
  match d.ingredients with
  | some ingf => ingf.items.foldl (addIngredientToRecipe localName) o
  | Option.none =>
    if cfg.createPlaceholders ∧ "Ingredient" ∈ o.classes ∧
        "IngredientWithAmount" ∈ o.classes then
      let phw := localName ++ "_ingredient_placeholder"
      let o := o.getOrCreate phw "IngredientWithAmount"
      let o := o.addPropIfEmpty phw "has_ingredient_with_amount_name" (Value.str "ingredient")
      let phi := localName ++ "_ingredient_base"
      let o := o.getOrCreate phi "Ingredient"
      let o := o.addPropIfEmpty phi "has_ingredient_name" (Value.str "ingredient")
      let o := o.addProp phw "type_of_ingredient" (Value.ent phi)
      o.addProp localName "has_ingredient" (Value.ent phw)
    else o

/-- create: nutrients, deduplicated by value through the name
`{nutrient}_{value}`. -/
def createNutrients (o : Onto) (d : CrudData) (localName : String) : Onto :=
  nutrientsMap.foldl (fun o row =>
    if row.1 ∈ o.classes then
      match d.nutrientField row.2.2.2 with
      | some v =>
        let iname := pyLower row.1 ++ "_" ++ toString v
        let o := o.getOrCreate iname row.1
        let o := o.addPropIfEmpty iname row.2.2.1 (Value.rat (v : ℚ))
        o.addProp localName row.2.1 (Value.ent iname)
      | Option.none => o
    else o) o

/-- create: the opt-in placeholder backfill for required sub-resources. -/
def createPlaceholderBackfill (cfg : CrudConfig) (o : Onto) (localName : String) : Onto :=
  if cfg.createPlaceholders then
    let o :=
      if o.propVals localName "requires_time" = [] ∧ "Time" ∈ o.classes then
        let tname := "time_" ++ localName ++ "_placeholder"
        let o := o.getOrCreate tname "Time"
        let o := o.addPropIfEmpty tname "amount_of_time" (Value.int 0)
        o.addProp localName "requires_time" (Value.ent tname)
      else o
    let o :=
      if o.propVals localName "has_difficulty" = [] ∧ "Difficulty" ∈ o.classes then
        let dname := "difficulty_" ++ localName ++ "_placeholder"
        let o := o.getOrCreate dname "Difficulty"
        let o := o.addPropIfEmpty dname "has_numeric_difficulty" (Value.int 0)
        o.addProp localName "has_difficulty" (Value.ent dname)
      else o
    let o := nutrientsMap.foldl (fun o row =>
      if o.propVals localName row.2.1 = [] ∧ row.1 ∈ o.classes then
        let iname := pyLower row.1 ++ "_0_placeholder"
        let o := o.getOrCreate iname row.1
        let o := o.addPropIfEmpty iname row.2.2.1 (Value.rat 0)
        o.addProp localName row.2.1 (Value.ent iname)
      else o) o
    if o.propVals localName "authored_by" = [] ∧ "Author" ∈ o.classes ∧
        "Source" ∈ o.classes then
      let aname := localName ++ "_author_placeholder"
      let sname := localName ++ "_source_placeholder"
      let o := o.getOrCreate sname "Source"
      let o := o.addPropIfEmpty sname "has_source_name" (Value.str "")
      let o := o.addPropIfEmpty sname "is_website" (Value.str "")
      let o := o.getOrCreate aname "Author"
      let o := o.addPropIfEmpty aname "has_author_name" (Value.str "")
      let o := o.addProp aname "is_author_of" (Value.ent sname)
      o.addProp localName "authored_by" (Value.ent aname)
    else o
  else o

/-- create: author and source. -/
def createAuthor (o : Onto) (d : CrudData) (localName : String) : Onto :=
  match d.author with
  | some a =>
    let sourceStep : Onto × Option String :=
      match d.source_name with
      | some sn =>
        if sn ≠ "" ∧ "Source" ∈ o.classes then
          let sname := sanitizeName sn
          let o := o.getOrCreate sname "Source"
          let o := o.addPropIfEmpty sname "has_source_name" (Value.str sn)
          let o := match d.source_link with
            | some sl => if sl ≠ "" then o.addProp sname "is_website" (Value.str sl) else o
            | Option.none => o
          (o, some sname)
        else (o, Option.none)
      | Option.none => (o, Option.none)
    let o := sourceStep.1
    if "Author" ∈ o.classes then
      let aname := sanitizeName a
      let o := o.getOrCreate aname "Author"
      let o := o.addPropIfEmpty aname "has_author_name" (Value.str a)
      let o := match sourceStep.2 with
        | some sname => o.addProp aname "is_author_of" (Value.ent sname)
        | Option.none => o
      o.addProp localName "authored_by" (Value.ent aname)
    else o
  | Option.none => o

/-- create: a link field, with the opt-in '' placeholder. -/
def createLinkField (cfg : CrudConfig) (o : Onto) (v : Option String)
    (localName prop : String) : Onto :=
  match v with
  | some l =>
    if l ≠ "" then o.addProp localName prop (Value.str l)
    else if cfg.createPlaceholders ∧ o.propVals localName prop = [] then
      o.addProp localName prop (Value.str "")
    else o
  | Option.none =>
    if cfg.createPlaceholders ∧ o.propVals localName prop = [] then
      o.addProp localName prop (Value.str "")
    else o

/-- The in-transaction body of `create_recipe` (the `with onto:` block),
run after all validations passed.  `now` is `int(time.time())`, used to
uniquify a colliding `Time` individual name. -/
def createBody (cfg : CrudConfig) (o0 : Onto) (d : CrudData) (localName title : String)
    (now : Int) : Onto :=
  let o := (o0.addInd localName "Recipe").addProp localName "has_recipe_name" (Value.str title)
  let o := createInstructions o d localName
  let o := o.addProp localName "is_vegan" (Value.bool (d.vegan.getD false))
  let o := o.addProp localName "is_vegetarian" (Value.bool (d.vegetarian.getD false))
  let o := createTime o d localName now
  let o := createDifficulty o d localName
  let o := createMealType o d localName
  let o := createIngredients cfg o d localName
  let o := createNutrients o d localName
  let o := createPlaceholderBackfill cfg o localName
  let o := createAuthor o d localName
  let o := createLinkField cfg o d.link localName "has_link"
  createLinkField cfg o d.image_link localName "has_image_link"

/-- `POST /recipes/crud` (`create_recipe`).  `persistOk` is whether the
temp-file save and atomic rename succeed; `now` is the wall clock. -/
def create_recipe (cfg : CrudConfig) (onto : Option Onto) (persistOk : Bool) (now : Int)
    (payload : Option CrudData) : MutationOutcome :=
  match payload with
  | Option.none =>
    ⟨validation_error_response [("body", "JSON body required")], onto, false, false⟩
  | some d =>
    match d.title with
    | Option.none =>
      ⟨validation_error_response [("title", "Title is required")], onto, false, false⟩
    | some title =>
      if title = "" then
        ⟨validation_error_response [("title", "Title is required")], onto, false, false⟩
      else if ¬ (strTruthyStripped d.instructions ∨ hasIngredientsCheck d.ingredients ∨
          strTruthyStripped d.link) then
        ⟨validation_error_response
          [("body", "Provide at least one of: instructions, ingredients or link")],
         onto, false, false⟩
      else
        match onto with
        | Option.none =>
          ⟨error_response "No ontology loaded" "NO_ONTOLOGY" [] 500, Option.none, false, false⟩
        | some o =>
          let localName := sanitizeName title
          if o.hasInd localName then
            ⟨validation_error_response [("title", "Recipe already exists")], some o, false, false⟩
          else if "Recipe" ∉ o.classes then
            ⟨error_response "Recipe class not found in ontology" "NO_CLASS" [] 500,
             some o, false, false⟩
          else
            let o1 := createBody cfg o d localName title now
            persistTail cfg persistOk o1
              (Resp.success (RData.obj [("id", localName)]) Option.none (some "Recipe created"))

/-- update: an optional simple field replaced wholesale by list
assignment (`individual.prop = [value]`). -/
def updateSetField (o : Onto) (v : Option Value) (rid prop : String) : Onto :=
  match v with
  | some w => o.setProp rid prop [w]
  | Option.none => o

/-- update: time, detach all old links then link a reused or fresh
Time entity. -/
def updateTime (o : Onto) (d : CrudData) (rid : String) : Onto :=
  match d.time with
  | some t =>
    let o := o.removeProps rid "requires_time"
    if "Time" ∈ o.classes then
      let tname := "time_" ++ toString t
      let o := o.getOrCreate tname "Time"
      let o := o.addPropIfEmpty tname "amount_of_time" (Value.int t)
      o.addProp rid "requires_time" (Value.ent tname)
    else o
  | Option.none => o

def updateDifficulty (o : Onto) (d : CrudData) (rid : String) : Onto :=
  match d.difficulty with
  | some dv =>
    let o := o.removeProps rid "has_difficulty"
    if "Difficulty" ∈ o.classes then
      let dname := "difficulty_" ++ toString dv
      let o := o.getOrCreate dname "Difficulty"
      let o := o.addPropIfEmpty dname "has_numeric_difficulty" (Value.int dv)
      o.addProp rid "has_difficulty" (Value.ent dname)
    else o
  | Option.none => o

def updateMealType (o : Onto) (d : CrudData) (rid : String) : Onto :=
  match d.meal_type with
  | some mt =>
    let o := o.removeProps rid "is_meal_type"
    if mt ≠ "" ∧ "MealType" ∈ o.classes then
      let mtname := sanitizeName mt
      let o := o.getOrCreate mtname "MealType"
      let o := o.addPropIfEmpty mtname "has_meal_type_name" (Value.str mt)
      o.addProp rid "is_meal_type" (Value.ent mtname)
    else o
  | Option.none => o

def updateNutrients (o : Onto) (d : CrudData) (rid : String) : Onto :=
  nutrientsMap.foldl (fun o row =>
    match d.nutrientField row.2.2.2 with
    | some v =>
      let o := o.removeProps rid row.2.1
      if row.1 ∈ o.classes then
        let iname := pyLower row.1 ++ "_" ++ toString v
        let o := o.getOrCreate iname row.1
        let o := o.addPropIfEmpty iname row.2.2.1 (Value.rat (v : ℚ))
        o.addProp rid row.2.1 (Value.ent iname)
      else o
    | Option.none => o) o

/-- update: ingredients, when the key is present: detach all old
IngredientWithAmount links (the call to `default_world.remove_entity`
raises AttributeError and is swallowed, so the detached entities
themselves survive), add the new ones, then run the placeholder backfill
block that lives inside this branch. -/
def updateIngredients (o : Onto) (d : CrudData) (rid : String) : Onto :=
  match d.ingredients with
  | some ingf =>
    let o := o.removeProps rid "has_ingredient"
    let o := ingf.items.foldl (addIngredientToRecipe rid) o
    let o := if o.propVals rid "is_vegan" = [] then
        o.addProp rid "is_vegan" (Value.bool false) else o
    let o := if o.propVals rid "is_vegetarian" = [] then
        o.addProp rid "is_vegetarian" (Value.bool false) else o
    let o :=
      if o.propVals rid "requires_time" = [] ∧ "Time" ∈ o.classes then
        let tname := "time_" ++ rid ++ "_placeholder"
        let o := o.getOrCreate tname "Time"
        let o := o.addPropIfEmpty tname "amount_of_time" (Value.int 0)
        o.addProp rid "requires_time" (Value.ent tname)
      else o
    let o :=
      if o.propVals rid "has_difficulty" = [] ∧ "Difficulty" ∈ o.classes then
        let dname := "difficulty_" ++ rid ++ "_placeholder"
        let o := o.getOrCreate dname "Difficulty"
        let o := o.addPropIfEmpty dname "has_numeric_difficulty" (Value.int 0)
        o.addProp rid "has_difficulty" (Value.ent dname)
      else o
    let o := nutrientsMap.foldl (fun o row =>
      if o.propVals rid row.2.1 = [] ∧ row.1 ∈ o.classes then
        let iname := pyLower row.1 ++ "_0_placeholder_" ++ rid
        let o := o.getOrCreate iname row.1
        let o := o.addPropIfEmpty iname row.2.2.1 (Value.rat 0)
        o.addProp rid row.2.1 (Value.ent iname)
      else o) o
    if o.propVals rid "authored_by" = [] ∧ "Author" ∈ o.classes ∧ "Source" ∈ o.classes then
      let aname := rid ++ "_author_placeholder"
      let sname := rid ++ "_source_placeholder"
      let o := o.getOrCreate sname "Source"
      let o := o.addPropIfEmpty sname "has_source_name" (Value.str "")
      let o := o.addPropIfEmpty sname "is_website" (Value.str "")
      let o := o.getOrCreate aname "Author"
      let o := o.addPropIfEmpty aname "has_author_name" (Value.str "")
      let o := o.addProp aname "is_author_of" (Value.ent sname)
      o.addProp rid "authored_by" (Value.ent aname)
    else o
  | Option.none => o

/-- The in-transaction body of `update_recipe` (the `with onto:` block). -/
def updateBody (o0 : Onto) (d : CrudData) (rid : String) : Onto :=
  let o := updateSetField o0 (d.title.map Value.str) rid "has_recipe_name"
  let o := updateSetField o (d.instructions.map Value.str) rid "has_instructions"
  let o := updateSetField o (d.vegan.map Value.bool) rid "is_vegan"
  let o := updateSetField o (d.vegetarian.map Value.bool) rid "is_vegetarian"
  let o := updateTime o d rid
  let o := updateDifficulty o d rid
  let o := updateMealType o d rid
  let o := updateNutrients o d rid
  let o := updateSetField o (d.link.map Value.str) rid "has_link"
  let o := updateSetField o (d.image_link.map Value.str) rid "has_image_link"
  updateIngredients o d rid

/-- `PATCH /recipes/crud/<recipe_id>` (`update_recipe`). -/
def update_recipe (cfg : CrudConfig) (onto : Option Onto) (persistOk : Bool)
    (rid : String) (payload : Option CrudData) : MutationOutcome :=
  match payload with
  | Option.none =>
    ⟨validation_error_response [("body", "JSON body required")], onto, false, false⟩
  | some d =>
    match onto with
    | Option.none =>
      ⟨error_response "No ontology loaded" "NO_ONTOLOGY" [] 500, Option.none, false, false⟩
    | some o =>
      match o.getInd rid with
      | Option.none =>
        ⟨validation_error_response [("id", "Recipe not found")], some o, false, false⟩
      | some _ =>
        let o1 := updateBody o d rid
        persistTail cfg persistOk o1
          (Resp.success RData.noneD Option.none (some "Recipe updated"))

/-- `DELETE /recipes/crud/<recipe_id>` (`delete_recipe`): resolve by name
(`_get_individual`, no type check), `destroy_entity`, persist, publish.
No orphan sweep follows the destroy. -/
def delete_recipe (cfg : CrudConfig) (onto : Option Onto) (persistOk : Bool)
    (rid : String) : MutationOutcome :=
  match onto with
  | Option.none =>
    ⟨error_response "No ontology loaded" "NO_ONTOLOGY" [] 500, Option.none, false, false⟩
  | some o =>
    match o.getInd rid with
    | Option.none =>
      ⟨validation_error_response [("id", "Recipe not found")], some o, false, false⟩
    | some _ =>
      let o1 := destroyEntity o rid
      persistTail cfg persistOk o1
        (Resp.success RData.noneD Option.none (some "Recipe deleted successfully"))

/-! ## Task dispatcher, retry policy and status endpoint
(`recipe_tasks.py`, `recipes.py`)

Python exceptions relevant to the task code, with their class names and
messages.  `TimeoutError` and `ConnectionError` are subclasses of
`OSError`; `FileNotFoundError` of `OSError`; Celery's
`TimeoutError`/`SoftTimeLimitExceeded` derive from plain `Exception`. -/

inductive PyExc where
  | timeoutError (m : String)
  | connectionError (m : String)
  | osError (m : String)
  | fileNotFoundError (m : String)
  | softTimeLimitExceeded (m : String)
  | celeryTimeoutError (m : String)
  | otherExc (typeName : String) (m : String)
deriving DecidableEq

def PyExc.typeName : PyExc → String
  | PyExc.timeoutError _ => "TimeoutError"
  | PyExc.connectionError _ => "ConnectionError"
  | PyExc.osError _ => "OSError"
  | PyExc.fileNotFoundError _ => "FileNotFoundError"
  | PyExc.softTimeLimitExceeded _ => "SoftTimeLimitExceeded"
  | PyExc.celeryTimeoutError _ => "TimeoutError"
  | PyExc.otherExc n _ => n

def PyExc.msg : PyExc → String
  | PyExc.timeoutError m => m
  | PyExc.connectionError m => m
  | PyExc.osError m => m
  | PyExc.fileNotFoundError m => m
  | PyExc.softTimeLimitExceeded m => m
  | PyExc.celeryTimeoutError m => m
  | PyExc.otherExc _ m => m

/-- `isinstance(exc, TRANSIENT_EXCEPTIONS)` with
`TRANSIENT_EXCEPTIONS = (TimeoutError, ConnectionError, OSError)`. -/
def PyExc.isTransient : PyExc → Bool
  | PyExc.timeoutError _ => true
  | PyExc.connectionError _ => true
  | PyExc.osError _ => true
  | PyExc.fileNotFoundError _ => true
  | _ => false

/-- `isinstance(exc, SoftTimeLimitExceeded)`. -/
def PyExc.isSoftLimit : PyExc → Bool
  | PyExc.softTimeLimitExceeded _ => true
  | _ => false

/-- Boolean substring test (Python `needle in hay`). -/
def strContainsB (hay needle : String) : Bool :=
  decide (needle.data <:+: hay.data)

/-- `max_retries=3` from the `@celery.task` decorator. -/
def taskMaxRetries : Nat := 3

/-- The backoff computed before `self.retry`:
`countdown = min(2 ** (self.request.retries + 1), 30)`. -/
def taskCountdown (retries : Nat) : Nat :=
  min (2 ^ (retries + 1)) 30

/-- Terminal state of one task as the poller sees it. -/
inductive TaskFinal where
  | succeeded
  | failed (stored : PyExc)
deriving DecidableEq

/-- Run of `search_recipes_async` over the successive execution outcomes
(`none` = the body returned normally, `some e` = it raised `e`), starting
at retry counter `retries`.  One except-dispatch mirrors the source:
transient exceptions go to `self.retry(exc=exc, countdown=..)` - which,
per Celery's documented contract, re-raises the original exception once
`retries + 1 > max_retries` and otherwise schedules a retry -
`SoftTimeLimitExceeded` and every other exception re-raise immediately.
Returns the scheduled backoff countdowns and the terminal state. -/
def runTask (maxRetries : Nat) : Nat → List (Option PyExc) → List Nat × TaskFinal
  | _, [] => ([], TaskFinal.succeeded)
  | _, Option.none :: _ => ([], TaskFinal.succeeded)
  | retries, some e :: rest =>
    if e.isTransient then
      let cd := taskCountdown retries
      if retries + 1 > maxRetries then ([], TaskFinal.failed e)
      else
        let next := runTask maxRetries (retries + 1) rest
        (cd :: next.1, next.2)
    else ([], TaskFinal.failed e)

/-- Celery task state as exposed by `AsyncResult`. -/
inductive TaskState where
  | pending
  | started
  | retryState
  | successState (recipes : List (List (String × PyVal))) (page perPage total : Nat)
  | failureState (exc : Option PyExc)
  | otherState (name : String)
deriving DecidableEq

/-- The timeout test of the FAILURE branch of `get_recipes_task_status`:
an isinstance check against Celery's `TimeoutError`/`SoftTimeLimitExceeded`
plus substring tests on the exception type name. -/
def isTimeoutFailure (e : PyExc) : Bool :=
  (match e with
   | PyExc.celeryTimeoutError _ => true
   | PyExc.softTimeLimitExceeded _ => true
   | _ => false) ||
  strContainsB e.typeName "TimeLimitExceeded" ||
  strContainsB e.typeName "Timeout"

/-- `GET /recipes/tasks/<task_id>` (`get_recipes_task_status`). -/
def get_recipes_task_status (taskId : String) : TaskState → Resp
  | TaskState.pending =>
    Resp.success (RData.obj [("state", "PENDING"), ("task_id", taskId)]) Option.none
      (some "Task is pending")
  | TaskState.started =>
    Resp.success (RData.obj [("state", "STARTED"), ("task_id", taskId)]) Option.none
      (some "Task is in progress")
  | TaskState.retryState =>
    Resp.success (RData.obj [("state", "RETRY"), ("task_id", taskId)]) Option.none
      (some "Task is in progress")
  | TaskState.successState recipes page perPage total =>
    Resp.success (RData.recipesList recipes) (some (page, perPage, total)) Option.none
  | TaskState.failureState exc =>
    match exc with
    | some e =>
      if isTimeoutFailure e then
        internal_error_response "Recipe search task timed out."
      else
        internal_error_response ("Recipe search task failed: " ++ e.msg)
    | Option.none =>
      internal_error_response ("Recipe search task failed: " ++ "Unknown error")
  | TaskState.otherState n =>
    Resp.success (RData.obj [("state", n)]) Option.none (some "Unknown task state")

/-! ## Search dispatch with synchronous fallback (`get_recipes`) -/

/-- `GET /recipes` (`get_recipes`) after filter validation: submit the
Celery task; on submission failure fall back to a synchronous search in
the calling process; when that fails too, the handler attempts
`internal_error_response(message, details=[..both reasons..])` - but
`internal_error_response` (response.py) accepts no `details` keyword, so
the call raises `TypeError`, which the outermost `except Exception`
catches and turns into the generic internal error response. -/
def get_recipes (submit : Except String String)
    (syncSearch : Except String (List (List (String × PyVal)) × Nat))
    (page perPage : Nat) : Resp :=
  match submit with
  | Except.ok taskId =>
    Resp.success (RData.obj [("task_id", taskId)]) Option.none
      (some "Recipe search task submitted")
  | Except.error _ =>
    match syncSearch with
    | Except.ok rs =>
      Resp.success (RData.recipesList rs.1) (some (page, perPage, rs.2))
        (some "Returned synchronous results after Celery submission failure.")
    | Except.error _ =>
      internal_error_response "An error occurred while processing your request"

/-- The response the dual-failure branch of `get_recipes` is written to
produce (its comment: "return a clear error response containing both
failure reasons"): the combined message with one detail entry per stage.
Stated from the source's call
`internal_error_response(msg, details=[{stage: celery_submission, ..},
{stage: synchronous_search, ..}])` as if `internal_error_response`
accepted the details. -/
def intendedDualFailureResp (celeryMsg syncMsg : String) : Resp :=
  Resp.error ⟨"INTERNAL_ERROR",
    "Recipe search failed: Celery submission error and synchronous fallback failed.",
    ["celery_submission: " ++ celeryMsg, "synchronous_search: " ++ syncMsg], 500⟩

/-! ## Worker-side lazy reload and version publication
(`_get_ontology_for_tasks`, `_publish_version_to_redis`) -/

/-- The worker-process module cache (`_ontology`, `_ontology_version`,
`_ontology_uri_cached`, `_ontology_mtime`).  The loaded ontology object is
abstracted to an opaque identifier.  The source's truthiness checks make
an empty-string Redis value behave like an absent one; absence is
modelled with `Option.none`. -/
structure WorkerCache where
  ontology : Option String
  version : Option String
  uriCached : Option String
  mtime : Option String
deriving DecidableEq

/-- The coordination-store values the worker reads
(`feinschmecker:ontology_version` / `ontology_uri` / `ontology_local`). -/
structure RedisState where
  version : Option String
  uri : Option String
  localPath : Option String
deriving DecidableEq

/-- `Path(p).resolve().as_uri()` (modelled for an absolute path). -/
def fileUri (p : String) : String :=
  "file://" ++ p

/-- The URI selection of `_get_ontology_for_tasks`: prefer the published
local path, then the published URI, then the configured `ONTOLOGY_URL`. -/
def chooseUri (redis : RedisState) (cfgUrl : Option String) : Option String :=
  match redis.localPath with
  | some lp => some (fileUri lp)
  | Option.none =>
    match redis.uri with
    | some u => some u
    | Option.none => cfgUrl

/-- The reload decision of `_get_ontology_for_tasks`, given the chosen
URI and the mtime of the published local file (when it exists):
no cached ontology, a differing published version, a differing URI, or -
as fallback for a local file - a differing mtime. -/
def needReload (w : WorkerCache) (redis : RedisState) (uri : String)
    (localMtime : Option String) : Bool :=
  if w.ontology.isNone then true
  else if (match redis.version with
           | some rv => decide (w.version ≠ some rv)
           | Option.none => false) then true
  else if some uri ≠ w.uriCached then true
  else
    match redis.localPath with
    | some _ =>
      (match localMtime with
       | some m => w.mtime ≠ some m
       | Option.none => false)
    | Option.none => false

/-- Cache state after a successful reload (`Update cache state` block). -/
def reloadedCache (redis : RedisState) (uri : String) (loadedId : String)
    (localMtime : Option String) : WorkerCache :=
  ⟨some loadedId, redis.version, some uri,
   match redis.localPath with
   | some _ => localMtime
   | Option.none => Option.none⟩

/-- `_publish_version_to_redis`: the published token is
`str(int(time.time()))`; when `ONTOLOGY_LOCAL_PATH` is configured the
local path and readiness marker are published as well. -/
def publishVersion (now : Nat) : String :=
  toString now

def publishToRedis (redis : RedisState) (now : Nat) (cfgLocal : Option String) :
    RedisState :=
  ⟨some (publishVersion now), redis.uri,
   match cfgLocal with
   | some p => some p
   | Option.none => redis.localPath⟩

/-! ## Satisfaction predicates and store invariants for the query model -/

/-- The value a term denotes under a binding (a variable denotes its
bound value, if any). -/
def evalTerm (b : Binding) : Term → Option Value
  | Term.var x => lookupVar b x
  | Term.ent e => some (Value.ent e)
  | Term.litB bo => some (Value.bool bo)
  | Term.litS s => some (Value.str s)

/-- The binding satisfies the triple pattern somewhere in the store. -/
def SatTriple (T : List Triple) (b : Binding) (s : Term) (p : String) (o : Term) : Prop :=
  ∃ e v, (e, p, v) ∈ T ∧ evalTerm b s = some (Value.ent e) ∧ evalTerm b o = some v

/-- What membership in the solution set guarantees per pattern (the
OPTIONAL group guarantees nothing on its own; it is analysed separately). -/
def PatHolds (rx : String → String → Bool) (T : List Triple) (b : Binding) : Pat → Prop
  | Pat.triple s p o => SatTriple T b s p o
  | Pat.filterRegexCI x pat => ∃ s, lookupVar b x = some (Value.str s) ∧ rx s pat = true
  | Pat.filterLt x bd => ∃ v, lookupVar b x = some v ∧ valLt v bd = true
  | Pat.filterGt x bd => ∃ v, lookupVar b x = some v ∧ valGt v bd = true
  | Pat.filterEqI x bd => ∃ v, lookupVar b x = some v ∧ valEqI v bd = true
  | Pat.optional2 _ _ _ _ _ _ => True

/-- Binding extension: everything bound in `b1` is bound the same in `b2`. -/
def Extends (b2 b1 : Binding) : Prop :=
  ∀ x v, lookupVar b1 x = some v → lookupVar b2 x = some v

def termVars : Term → List String
  | Term.var x => [x]
  | _ => []

def patVars : Pat → List String
  | Pat.triple s _ o => termVars s ++ termVars o
  | Pat.filterRegexCI x _ => [x]
  | Pat.filterLt x _ => [x]
  | Pat.filterGt x _ => [x]
  | Pat.filterEqI x _ => [x]
  | Pat.optional2 s1 _ o1 s2 _ o2 =>
    termVars s1 ++ termVars o1 ++ termVars s2 ++ termVars o2

def patsVars (ps : List Pat) : List String :=
  ps.flatMap patVars

/-- `p` is single-valued in the store (every subject carries at most one
object for it) - the data-model invariant that Recipe has exactly one
name/link/time/... reference and nutrient/time entities one amount. -/
def FuncProp (T : List Triple) (p : String) : Prop :=
  ∀ s v w, (s, p, v) ∈ T → (s, p, w) ∈ T → v = w

/-- The value of `p` identifies its subject (recipe names are unique:
the slug-keyed store admits one individual per name). -/
def InjProp (T : List Triple) (p : String) : Prop :=
  ∀ s1 s2 v, (s1, p, v) ∈ T → (s2, p, v) ∈ T → s1 = s2

/-- Executable check for `FuncProp`. -/
def funcPropB (T : List Triple) (p : String) : Bool :=
  T.all (fun t1 => T.all (fun t2 =>
    !(t1.1 = t2.1 ∧ t1.2.1 = p ∧ t2.2.1 = p) || t1.2.2 = t2.2.2))

/-- Executable check for `InjProp`. -/
def injPropB (T : List Triple) (p : String) : Bool :=
  T.all (fun t1 => T.all (fun t2 =>
    !(t1.2.1 = p ∧ t2.2.1 = p ∧ t1.2.2 = t2.2.2) || t1.1 = t2.1))

/-- The scalar chains projected by the result query, single-valued per
the data model (one Time/Difficulty/nutrient/author/source reference per
recipe, one amount per shared entity, at most one meal type), plus
uniqueness of recipe names. -/
structure StoreWF (T : List Triple) : Prop where
  fName : FuncProp T "feinschmecker:has_recipe_name"
  fLink : FuncProp T "feinschmecker:has_link"
  fImage : FuncProp T "feinschmecker:has_image_link"
  fInstr : FuncProp T "feinschmecker:has_instructions"
  fVegan : FuncProp T "feinschmecker:is_vegan"
  fVeget : FuncProp T "feinschmecker:is_vegetarian"
  fMeal : FuncProp T "feinschmecker:is_meal_type"
  fMealName : FuncProp T "feinschmecker:has_meal_type_name"
  fTime : FuncProp T "feinschmecker:requires_time"
  fTimeAmt : FuncProp T "feinschmecker:amount_of_time"
  fDiff : FuncProp T "feinschmecker:has_difficulty"
  fDiffAmt : FuncProp T "feinschmecker:has_numeric_difficulty"
  fCal : FuncProp T "feinschmecker:has_calories"
  fCalAmt : FuncProp T "feinschmecker:amount_of_calories"
  fProt : FuncProp T "feinschmecker:has_protein"
  fProtAmt : FuncProp T "feinschmecker:amount_of_protein"
  fFat : FuncProp T "feinschmecker:has_fat"
  fFatAmt : FuncProp T "feinschmecker:amount_of_fat"
  fCarb : FuncProp T "feinschmecker:has_carbohydrates"
  fCarbAmt : FuncProp T "feinschmecker:amount_of_carbohydrates"
  fAuth : FuncProp T "feinschmecker:authored_by"
  fAuthName : FuncProp T "feinschmecker:has_author_name"
  fAuthOf : FuncProp T "feinschmecker:is_author_of"
  fSrcName : FuncProp T "feinschmecker:has_source_name"
  fWebsite : FuncProp T "feinschmecker:is_website"
  iName : InjProp T "feinschmecker:has_recipe_name"

/-- Recipe `r` has a complete meal-type chain in the store. -/
def MealChain (T : List Triple) (r : String) : Prop :=
  ∃ ty v, (r, "feinschmecker:is_meal_type", Value.ent ty) ∈ T ∧
    (ty, "feinschmecker:has_meal_type_name", v) ∈ T

/-- The join-variable suffix of the i-th ingredient filter:
one more `"a"` per position, starting at `"a"`. -/
def growA : Nat → String
  | 0 => ""
  | n + 1 => "a" ++ growA n

def ingSuffix (i : Nat) : String :=
  "a" ++ growA i

/-- Concatenated rendering of a pattern list. -/
def renderPats : List Pat → String
  | [] => ""
  | p :: ps => renderPat p ++ renderPats ps

/-- The patterns emitted before the meal-type section. -/
def preMealPats (f : Filters) : List Pat :=
  [Pat.triple (Term.var "res") "rdf:type" (Term.ent "feinschmecker:Recipe")] ++
  ingredientSectionPats f ++ dietarySectionPats f

/-- The patterns emitted after the meal-type section. -/
def postMealPats (f : Filters) : List Pat :=
  timeDifficultySectionPats f ++ nutrientSectionPats f ++ requiredSectionPats

/-- Executable conjunction of the `StoreWF` invariants. -/
def storeWFB (T : List Triple) : Bool :=
  funcPropB T "feinschmecker:has_recipe_name" &&
  funcPropB T "feinschmecker:has_link" &&
  funcPropB T "feinschmecker:has_image_link" &&
  funcPropB T "feinschmecker:has_instructions" &&
  funcPropB T "feinschmecker:is_vegan" &&
  funcPropB T "feinschmecker:is_vegetarian" &&
  funcPropB T "feinschmecker:is_meal_type" &&
  funcPropB T "feinschmecker:has_meal_type_name" &&
  funcPropB T "feinschmecker:requires_time" &&
  funcPropB T "feinschmecker:amount_of_time" &&
  funcPropB T "feinschmecker:has_difficulty" &&
  funcPropB T "feinschmecker:has_numeric_difficulty" &&
  funcPropB T "feinschmecker:has_calories" &&
  funcPropB T "feinschmecker:amount_of_calories" &&
  funcPropB T "feinschmecker:has_protein" &&
  funcPropB T "feinschmecker:amount_of_protein" &&
  funcPropB T "feinschmecker:has_fat" &&
  funcPropB T "feinschmecker:amount_of_fat" &&
  funcPropB T "feinschmecker:has_carbohydrates" &&
  funcPropB T "feinschmecker:amount_of_carbohydrates" &&
  funcPropB T "feinschmecker:authored_by" &&
  funcPropB T "feinschmecker:has_author_name" &&
  funcPropB T "feinschmecker:is_author_of" &&
  funcPropB T "feinschmecker:has_source_name" &&
  funcPropB T "feinschmecker:is_website" &&
  injPropB T "feinschmecker:has_recipe_name"

/-! ### Concrete test fixtures for the witnesses -/

/-- A faithful instance of the engine's case-insensitive matcher for the
plain-substring patterns the API sends. -/
def rx0 : String → String → Bool :=
  fun s sub => strContainsB (pyLower s) (pyLower sub)

/-- A store holding one complete recipe (all mandatory chains present). -/
def c1T : List Triple :=
  [("pancakes", "rdf:type", Value.ent "feinschmecker:Recipe"),
   ("pancakes", "feinschmecker:has_recipe_name", Value.str "Pancakes"),
   ("pancakes", "feinschmecker:has_link", Value.str "http://x"),
   ("pancakes", "feinschmecker:has_image_link", Value.str "http://i"),
   ("pancakes", "feinschmecker:has_instructions", Value.str "Mix. Fry."),
   ("pancakes", "feinschmecker:is_vegan", Value.bool false),
   ("pancakes", "feinschmecker:is_vegetarian", Value.bool true),
   ("pancakes", "feinschmecker:requires_time", Value.ent "time_15"),
   ("time_15", "feinschmecker:amount_of_time", Value.int 15),
   ("pancakes", "feinschmecker:has_difficulty", Value.ent "difficulty_1"),
   ("difficulty_1", "feinschmecker:has_numeric_difficulty", Value.int 1),
   ("pancakes", "feinschmecker:has_calories", Value.ent "calories_350"),
   ("calories_350", "feinschmecker:amount_of_calories", Value.rat 350),
   ("pancakes", "feinschmecker:has_protein", Value.ent "protein_10"),
   ("protein_10", "feinschmecker:amount_of_protein", Value.rat 10),
   ("pancakes", "feinschmecker:has_fat", Value.ent "fat_5"),
   ("fat_5", "feinschmecker:amount_of_fat", Value.rat 5),
   ("pancakes", "feinschmecker:has_carbohydrates", Value.ent "carbohydrates_40"),
   ("carbohydrates_40", "feinschmecker:amount_of_carbohydrates", Value.rat 40),
   ("pancakes", "feinschmecker:has_ingredient", Value.ent "2_eggs"),
   ("2_eggs", "feinschmecker:has_ingredient_with_amount_name", Value.str "2 eggs"),
   ("2_eggs", "feinschmecker:type_of_ingredient", Value.ent "eggs"),
   ("eggs", "feinschmecker:has_ingredient_name", Value.str "eggs"),
   ("pancakes", "feinschmecker:has_ingredient", Value.ent "200g_flour"),
   ("200g_flour", "feinschmecker:has_ingredient_with_amount_name", Value.str "200g flour"),
   ("200g_flour", "feinschmecker:type_of_ingredient", Value.ent "flour"),
   ("flour", "feinschmecker:has_ingredient_name", Value.str "flour"),
   ("pancakes", "feinschmecker:authored_by", Value.ent "alice"),
   ("alice", "feinschmecker:has_author_name", Value.str "Alice"),
   ("alice", "feinschmecker:is_author_of", Value.ent "blog"),
   ("blog", "feinschmecker:has_source_name", Value.str "Blog"),
   ("blog", "feinschmecker:is_website", Value.str "http://b")]

/-- The filter set `ingredients=["egg","flour"]`. -/
def fC1 : Filters :=
  ⟨some ["egg", "flour"], Option.none, Option.none, Option.none, Option.none, Option.none,
   Option.none, Option.none, Option.none, Option.none, Option.none, Option.none,
   Option.none, Option.none, Option.none, Option.none, Option.none, Option.none,
   Option.none, Option.none, Option.none, Option.none⟩

/-- The classes of the Feinschmecker ontology. -/
def feinClasses : List String :=
  ["Recipe", "Time", "Difficulty", "MealType", "Ingredient", "IngredientWithAmount",
   "Calories", "Protein", "Fat", "Carbohydrates", "Author", "Source"]

/-- Configuration with a backing file configured. -/
def cfgWithPath : CrudConfig := ⟨some "/data/feinschmecker.nt", false⟩

/-- Configuration with no backing file configured. -/
def cfgNoPath : CrudConfig := ⟨Option.none, false⟩

/-- Store for the delete counterexample: two recipes; `time_15` referenced
only by `pancakes`, `calories_350` shared by both. -/
def c3Onto : Onto :=
  ⟨feinClasses,
   [("pancakes", "Recipe"), ("waffles", "Recipe"), ("time_15", "Time"),
    ("time_30", "Time"), ("calories_350", "Calories")],
   [("pancakes", "requires_time", Value.ent "time_15"),
    ("waffles", "requires_time", Value.ent "time_30"),
    ("pancakes", "has_calories", Value.ent "calories_350"),
    ("waffles", "has_calories", Value.ent "calories_350")]⟩

/-- Store for the slug-collision case: the name `alice` belongs to an
Author individual, not a Recipe. -/
def c8Onto : Onto :=
  ⟨feinClasses,
   [("pancakes", "Recipe"), ("alice", "Author")],
   [("pancakes", "authored_by", Value.ent "alice"),
    ("alice", "has_author_name", Value.str "Alice")]⟩

/-- An empty store with the standard classes. -/
def emptyOnto : Onto := ⟨feinClasses, [], []⟩

/-- A complete create payload (the end-to-end scenario of the spec).
Field order: title, instructions, ingredients, link, image_link, vegan,
vegetarian, time, difficulty, meal_type, calories, protein, fat,
carbohydrates, author, source_name, source_link. -/
def pancakesData : CrudData :=
  ⟨some "Pancakes", some "Mix. Fry.", some (IngField.list ["2 eggs", "200g flour"]),
   Option.none, Option.none, some false, some true, some 15, some 1, Option.none,
   some 350, some 10, Option.none, Option.none, some "Alice", Option.none, Option.none⟩

/-- A payload with a title but no instructions, no ingredients, no link. -/
def titleOnlyData : CrudData :=
  ⟨some "Empty Recipe", Option.none, Option.none, Option.none, Option.none, Option.none,
   Option.none, Option.none, Option.none, Option.none, Option.none, Option.none,
   Option.none, Option.none, Option.none, Option.none, Option.none⟩

/-! # Lemmas and theorems -/

theorem Extends.rfl {b : Binding} : Extends b b := fun _ _ h => h

theorem Extends.trans {b3 b2 b1 : Binding} (h32 : Extends b3 b2) (h21 : Extends b2 b1) :
    Extends b3 b1 :=
  fun x v h => h32 x v (h21 x v h)

theorem matchTerm_extends {b b' : Binding} {t : Term} {v : Value}
    (h : matchTerm b t v = some b') : Extends b' b := by
  cases t with
  | var x =>
    simp only [matchTerm] at h
    cases hl : lookupVar b x with
    | some w =>
      rw [hl] at h
      by_cases hwv : w = v
      · simp [hwv] at h; subst h; exact Extends.rfl
      · simp [hwv] at h
    | none =>
      rw [hl] at h
      simp at h
      subst h
      intro y w hw
      have hxy : x ≠ y := by
        intro he; subst he; rw [hl] at hw; exact Option.noConfusion hw
      simpa [lookupVar, hxy] using hw
  | ent e =>
    simp only [matchTerm] at h
    by_cases hv : v = Value.ent e
    · simp [hv] at h; subst h; exact Extends.rfl
    · simp [hv] at h
  | litB bo =>
    simp only [matchTerm] at h
    by_cases hv : v = Value.bool bo
    · simp [hv] at h; subst h; exact Extends.rfl
    · simp [hv] at h
  | litS s =>
    simp only [matchTerm] at h
    by_cases hv : v = Value.str s
    · simp [hv] at h; subst h; exact Extends.rfl
    · simp [hv] at h

theorem matchTerm_eval {b b' : Binding} {t : Term} {v : Value}
    (h : matchTerm b t v = some b') : evalTerm b' t = some v := by
  cases t with
  | var x =>
    simp only [matchTerm] at h
    cases hl : lookupVar b x with
    | some w =>
      rw [hl] at h
      by_cases hwv : w = v
      · simp [hwv] at h; subst h; simp [evalTerm, hl, hwv]
      · simp [hwv] at h
    | none =>
      rw [hl] at h; simp at h; subst h
      simp [evalTerm, lookupVar]
  | ent e =>
    simp only [matchTerm] at h
    by_cases hv : v = Value.ent e
    · simp [evalTerm, hv]
    · simp [hv] at h
  | litB bo =>
    simp only [matchTerm] at h
    by_cases hv : v = Value.bool bo
    · simp [evalTerm, hv]
    · simp [hv] at h
  | litS s =>
    simp only [matchTerm] at h
    by_cases hv : v = Value.str s
    · simp [evalTerm, hv]
    · simp [hv] at h

theorem matchTerm_frame {b b' : Binding} {t : Term} {v : Value}
    (h : matchTerm b t v = some b') :
    ∀ x, x ∉ termVars t → lookupVar b' x = lookupVar b x := by
  intro y hy
  cases t with
  | var x =>
    have hxy : x ≠ y := by simp [termVars] at hy; exact fun he => hy he.symm
    simp only [matchTerm] at h
    cases hl : lookupVar b x with
    | some w =>
      rw [hl] at h
      by_cases hwv : w = v
      · simp [hwv] at h; subst h; rfl
      · simp [hwv] at h
    | none =>
      rw [hl] at h; simp at h; subst h
      simp [lookupVar, hxy]
  | ent e =>
    simp only [matchTerm] at h
    by_cases hv : v = Value.ent e
    · simp [hv] at h; subst h; rfl
    · simp [hv] at h
  | litB bo =>
    simp only [matchTerm] at h
    by_cases hv : v = Value.bool bo
    · simp [hv] at h; subst h; rfl
    · simp [hv] at h
  | litS s =>
    simp only [matchTerm] at h
    by_cases hv : v = Value.str s
    · simp [hv] at h; subst h; rfl
    · simp [hv] at h

theorem evalTerm_mono {b b' : Binding} {t : Term} {v : Value}
    (hext : Extends b' b) (h : evalTerm b t = some v) : evalTerm b' t = some v := by
  cases t with
  | var x => exact hext x v h
  | ent e => exact h
  | litB bo => exact h
  | litS s => exact h

theorem satTriple_mono {T : List Triple} {b b' : Binding} {s : Term} {p : String} {o : Term}
    (hext : Extends b' b) (h : SatTriple T b s p o) : SatTriple T b' s p o := by
  obtain ⟨e, v, hT, hs, ho⟩ := h
  exact ⟨e, v, hT, evalTerm_mono hext hs, evalTerm_mono hext ho⟩

theorem patHolds_mono {rx : String → String → Bool} {T : List Triple} {b b' : Binding}
    {p : Pat} (hext : Extends b' b) (h : PatHolds rx T b p) : PatHolds rx T b' p := by
  cases p with
  | triple s pr o => exact satTriple_mono hext h
  | filterRegexCI x pat =>
    obtain ⟨s, hl, hr⟩ := h; exact ⟨s, hext x _ hl, hr⟩
  | filterLt x bd =>
    obtain ⟨v, hl, hv⟩ := h; exact ⟨v, hext x _ hl, hv⟩
  | filterGt x bd =>
    obtain ⟨v, hl, hv⟩ := h; exact ⟨v, hext x _ hl, hv⟩
  | filterEqI x bd =>
    obtain ⟨v, hl, hv⟩ := h; exact ⟨v, hext x _ hl, hv⟩
  | optional2 s1 p1 o1 s2 p2 o2 => trivial

theorem matchTriple_extends {b b' : Binding} {s : Term} {p : String} {o : Term} {t : Triple}
    (h : matchTriple b s p o t = some b') : Extends b' b := by
  simp only [matchTriple] at h
  by_cases hp : p = t.2.1
  · rw [if_pos hp] at h
    cases h1 : matchTerm b s (Value.ent t.1) with
    | some b1 =>
      rw [h1] at h
      exact (matchTerm_extends h).trans (matchTerm_extends h1)
    | none => rw [h1] at h; exact Option.noConfusion h
  · rw [if_neg hp] at h; exact Option.noConfusion h

theorem matchTriple_frame {b b' : Binding} {s : Term} {p : String} {o : Term} {t : Triple}
    (h : matchTriple b s p o t = some b') :
    ∀ x, x ∉ termVars s → x ∉ termVars o → lookupVar b' x = lookupVar b x := by
  intro x hxs hxo
  simp only [matchTriple] at h
  by_cases hp : p = t.2.1
  · rw [if_pos hp] at h
    cases h1 : matchTerm b s (Value.ent t.1) with
    | some b1 =>
      rw [h1] at h
      rw [matchTerm_frame h x hxo, matchTerm_frame h1 x hxs]
    | none => rw [h1] at h; exact Option.noConfusion h
  · rw [if_neg hp] at h; exact Option.noConfusion h

theorem matchTriple_sat {T : List Triple} {b b' : Binding} {s : Term} {p : String} {o : Term}
    {t : Triple} (ht : t ∈ T) (h : matchTriple b s p o t = some b') :
    SatTriple T b' s p o := by
  simp only [matchTriple] at h
  by_cases hp : p = t.2.1
  · rw [if_pos hp] at h
    cases h1 : matchTerm b s (Value.ent t.1) with
    | some b1 =>
      rw [h1] at h
      refine ⟨t.1, t.2.2, ?_, ?_, matchTerm_eval h⟩
      · rw [hp]; exact ht
      · exact evalTerm_mono (matchTerm_extends h) (matchTerm_eval h1)
    | none => rw [h1] at h; exact Option.noConfusion h
  · rw [if_neg hp] at h; exact Option.noConfusion h

theorem mem_matchTripleAll {T : List Triple} {b b' : Binding} {s : Term} {p : String}
    {o : Term} (h : b' ∈ matchTripleAll T b s p o) :
    ∃ t ∈ T, matchTriple b s p o t = some b' := by
  simpa [matchTripleAll, List.mem_filterMap] using h

/-- Every output binding of one evaluation step extends an input binding
and agrees with it outside the pattern's variables. -/
theorem mem_evalPat_extends {rx : String → String → Bool} {T : List Triple} {p : Pat}
    {bs : List Binding} {b' : Binding} (h : b' ∈ evalPat rx T p bs) :
    ∃ b ∈ bs, Extends b' b ∧ ∀ x, x ∉ patVars p → lookupVar b' x = lookupVar b x := by
  cases p with
  | triple s pr o =>
    simp only [evalPat, List.mem_flatMap] at h
    obtain ⟨b, hb, hm⟩ := h
    obtain ⟨t, _, hmt⟩ := mem_matchTripleAll hm
    refine ⟨b, hb, matchTriple_extends hmt, ?_⟩
    intro x hx
    simp only [patVars, List.mem_append] at hx
    push_neg at hx
    exact matchTriple_frame hmt x hx.1 hx.2
  | filterRegexCI x pat =>
    simp only [evalPat, List.mem_filter] at h
    exact ⟨b', h.1, Extends.rfl, fun _ _ => rfl⟩
  | filterLt x bd =>
    simp only [evalPat, List.mem_filter] at h
    exact ⟨b', h.1, Extends.rfl, fun _ _ => rfl⟩
  | filterGt x bd =>
    simp only [evalPat, List.mem_filter] at h
    exact ⟨b', h.1, Extends.rfl, fun _ _ => rfl⟩
  | filterEqI x bd =>
    simp only [evalPat, List.mem_filter] at h
    exact ⟨b', h.1, Extends.rfl, fun _ _ => rfl⟩
  | optional2 s1 p1 o1 s2 p2 o2 =>
    simp only [evalPat, List.mem_flatMap] at h
    obtain ⟨b, hb, hm⟩ := h
    by_cases he : ((matchTripleAll T b s1 p1 o1).flatMap
        (fun b1 => matchTripleAll T b1 s2 p2 o2)).isEmpty
    · rw [if_pos he] at hm
      simp at hm; subst hm
      exact ⟨b', hb, Extends.rfl, fun _ _ => rfl⟩
    · rw [if_neg he] at hm
      simp only [List.mem_flatMap] at hm
      obtain ⟨b1, hb1, hb2⟩ := hm
      obtain ⟨t1, _, hm1⟩ := mem_matchTripleAll hb1
      obtain ⟨t2, _, hm2⟩ := mem_matchTripleAll hb2
      refine ⟨b, hb, (matchTriple_extends hm2).trans (matchTriple_extends hm1), ?_⟩
      intro x hx
      simp only [patVars, List.mem_append] at hx
      push_neg at hx
      rw [matchTriple_frame hm2 x hx.1.2 hx.2, matchTriple_frame hm1 x hx.1.1.1 hx.1.1.2]

/-- Every output binding of one evaluation step satisfies the pattern
(trivially for the OPTIONAL group). -/
theorem mem_evalPat_holds {rx : String → String → Bool} {T : List Triple} {p : Pat}
    {bs : List Binding} {b' : Binding} (h : b' ∈ evalPat rx T p bs) :
    PatHolds rx T b' p := by
  cases p with
  | triple s pr o =>
    simp only [evalPat, List.mem_flatMap] at h
    obtain ⟨b, _, hm⟩ := h
    obtain ⟨t, ht, hmt⟩ := mem_matchTripleAll hm
    exact matchTriple_sat ht hmt
  | filterRegexCI x pat =>
    simp only [evalPat, List.mem_filter] at h
    rcases h with ⟨_, hc⟩
    cases hl : lookupVar b' x with
    | some v =>
      rw [hl] at hc
      cases v with
      | str s => exact ⟨s, hl, hc⟩
      | ent e => simp at hc
      | bool bo => simp at hc
      | int n => simp at hc
      | rat q => simp at hc
    | none => rw [hl] at hc; simp at hc
  | filterLt x bd =>
    simp only [evalPat, List.mem_filter] at h
    rcases h with ⟨_, hc⟩
    cases hl : lookupVar b' x with
    | some v => rw [hl] at hc; exact ⟨v, hl, hc⟩
    | none => rw [hl] at hc; simp at hc
  | filterGt x bd =>
    simp only [evalPat, List.mem_filter] at h
    rcases h with ⟨_, hc⟩
    cases hl : lookupVar b' x with
    | some v => rw [hl] at hc; exact ⟨v, hl, hc⟩
    | none => rw [hl] at hc; simp at hc
  | filterEqI x bd =>
    simp only [evalPat, List.mem_filter] at h
    rcases h with ⟨_, hc⟩
    cases hl : lookupVar b' x with
    | some v => rw [hl] at hc; exact ⟨v, hl, hc⟩
    | none => rw [hl] at hc; simp at hc
  | optional2 s1 p1 o1 s2 p2 o2 => trivial

theorem evalPats_append (rx : String → String → Bool) (T : List Triple)
    (A B : List Pat) (bs : List Binding) :
    evalPats rx T (A ++ B) bs = evalPats rx T B (evalPats rx T A bs) := by
  induction A generalizing bs with
  | nil => rfl
  | cons p ps ih => simp [evalPats, ih]

/-- Every solution extends an input binding, agrees with it outside the
patterns' variables and satisfies every pattern of the list. -/
theorem mem_evalPats_props {rx : String → String → Bool} {T : List Triple}
    {ps : List Pat} {bs : List Binding} {b' : Binding} (h : b' ∈ evalPats rx T ps bs) :
    ∃ b ∈ bs, Extends b' b ∧
      (∀ x, x ∉ patsVars ps → lookupVar b' x = lookupVar b x) ∧
      ∀ p ∈ ps, PatHolds rx T b' p := by
  induction ps generalizing bs with
  | nil =>
    exact ⟨b', h, Extends.rfl, fun _ _ => rfl, by simp⟩
  | cons p ps ih =>
    simp only [evalPats] at h
    obtain ⟨b1, hb1, hext1, hfr1, hholds⟩ := ih h
    obtain ⟨b0, hb0, hext0, hfr0⟩ := mem_evalPat_extends hb1
    refine ⟨b0, hb0, hext1.trans hext0, ?_, ?_⟩
    · intro x hx
      simp only [patsVars, List.flatMap_cons, List.mem_append] at hx
      push_neg at hx
      rw [hfr1 x (by simpa [patsVars] using hx.2), hfr0 x hx.1]
    · intro q hq
      rcases List.mem_cons.mp hq with hq | hq
      · subst hq
        exact patHolds_mono hext1 (mem_evalPat_holds hb1)
      · exact hholds q hq

/-- The two cases of an OPTIONAL group (left join): either no extension
matched and the binding passes through unchanged, or the output satisfies
both triple patterns. -/
theorem mem_evalPat_opt {rx : String → String → Bool} {T : List Triple}
    {s1 o1 s2 o2 : Term} {p1 p2 : String} {bs : List Binding} {b1 : Binding}
    (h : b1 ∈ evalPat rx T (Pat.optional2 s1 p1 o1 s2 p2 o2) bs) :
    ∃ b0 ∈ bs,
      (b1 = b0 ∧ (matchTripleAll T b0 s1 p1 o1).flatMap
        (fun bb => matchTripleAll T bb s2 p2 o2) = []) ∨
      (Extends b1 b0 ∧ SatTriple T b1 s1 p1 o1 ∧ SatTriple T b1 s2 p2 o2) := by
  simp only [evalPat, List.mem_flatMap] at h
  obtain ⟨b0, hb0, hm⟩ := h
  by_cases he : ((matchTripleAll T b0 s1 p1 o1).flatMap
      (fun bb => matchTripleAll T bb s2 p2 o2)).isEmpty
  · rw [if_pos he] at hm
    simp at hm; subst hm
    exact ⟨b1, hb0, Or.inl ⟨rfl, List.isEmpty_iff.mp he⟩⟩
  · rw [if_neg he] at hm
    simp only [List.mem_flatMap] at hm
    obtain ⟨bm, hbm, hb1m⟩ := hm
    obtain ⟨t1, ht1, hm1⟩ := mem_matchTripleAll hbm
    obtain ⟨t2, ht2, hm2⟩ := mem_matchTripleAll hb1m
    refine ⟨b0, hb0, Or.inr ⟨(matchTriple_extends hm2).trans (matchTriple_extends hm1),
      satTriple_mono (matchTriple_extends hm2) (matchTriple_sat ht1 hm1),
      matchTriple_sat ht2 hm2⟩⟩

/-- Completeness of the OPTIONAL meal-type group: when the recipe bound to
`?res` has a meal-type chain in the store and the group's variables are
still unbound, some extension matches. -/
theorem optMeal_ext_ne_nil {T : List Triple} {b0 : Binding} {r ty : String} {v : Value}
    (hres : lookupVar b0 "res" = some (Value.ent r))
    (hty : lookupVar b0 "type" = Option.none)
    (htn : lookupVar b0 "type_name" = Option.none)
    (h1 : (r, "feinschmecker:is_meal_type", Value.ent ty) ∈ T)
    (h2 : (ty, "feinschmecker:has_meal_type_name", v) ∈ T) :
    (matchTripleAll T b0 (Term.var "res") "feinschmecker:is_meal_type" (Term.var "type")).flatMap
      (fun bb => matchTripleAll T bb (Term.var "type") "feinschmecker:has_meal_type_name"
        (Term.var "type_name")) ≠ [] := by
  apply List.ne_nil_of_mem (a := ("type_name", v) :: ("type", Value.ent ty) :: b0)
  rw [List.mem_flatMap]
  refine ⟨("type", Value.ent ty) :: b0, ?_, ?_⟩
  · rw [matchTripleAll, List.mem_filterMap]
    refine ⟨(r, "feinschmecker:is_meal_type", Value.ent ty), h1, ?_⟩
    simp [matchTriple, matchTerm, hres, hty]
  · rw [matchTripleAll, List.mem_filterMap]
    refine ⟨(ty, "feinschmecker:has_meal_type_name", v), h2, ?_⟩
    simp [matchTriple, matchTerm, lookupVar, htn]

/-- One functional-property step: if `p` is single-valued and two bindings
satisfy `?y p ?x` with the same value for `?y`, they agree on `?x`. -/
theorem detStep {T : List Triple} {b1 b2 : Binding} {y p x : String}
    (hf : FuncProp T p)
    (h1 : SatTriple T b1 (Term.var y) p (Term.var x))
    (h2 : SatTriple T b2 (Term.var y) p (Term.var x))
    (hy : lookupVar b1 y = lookupVar b2 y) :
    lookupVar b1 x = lookupVar b2 x := by
  obtain ⟨e1, v1, hT1, hs1, ho1⟩ := h1
  obtain ⟨e2, v2, hT2, hs2, ho2⟩ := h2
  simp only [evalTerm] at hs1 ho1 hs2 ho2
  rw [hs1, hs2] at hy
  have he : e1 = e2 := Value.ent.inj (Option.some.inj hy)
  subst he
  rw [ho1, ho2, hf e1 v1 v2 hT1 hT2]

/-- Injectivity step: recipe names identify recipes. -/
theorem injStep {T : List Triple} {b1 b2 : Binding} {y p x : String}
    (hi : InjProp T p)
    (h1 : SatTriple T b1 (Term.var y) p (Term.var x))
    (h2 : SatTriple T b2 (Term.var y) p (Term.var x))
    (hx : lookupVar b1 x = lookupVar b2 x) :
    lookupVar b1 y = lookupVar b2 y := by
  obtain ⟨e1, v1, hT1, hs1, ho1⟩ := h1
  obtain ⟨e2, v2, hT2, hs2, ho2⟩ := h2
  simp only [evalTerm] at hs1 ho1 hs2 ho2
  rw [ho1, ho2] at hx
  have hv : v1 = v2 := Option.some.inj hx
  subst hv
  rw [hs1, hs2, hi e1 e2 v1 hT1 hT2]

theorem ne_append_of_head (p x : String) (c d : Char)
    (hp : p.data.head? = some c) (hx : x.data.head? = some d) (hcd : c ≠ d) :
    ∀ suf, x ≠ p ++ suf := by
  intro suf he
  apply hcd
  have hxd : x.data.head? = some c := by
    rw [he, String.data_append]
    cases hpd : p.data with
    | nil => rw [hpd] at hp; exact Option.noConfusion hp
    | cons a l =>
      rw [hpd] at hp
      simpa using hp
  rw [hx] at hxd
  exact (Option.some.inj hxd).symm

/-- The variables of the ingredient section all carry an
`ext_ing`/`ing`/`ing_name` prefix (or are `res`). -/
theorem mem_patsVars_ingredientPatsAux {x : String} {app : String} {ings : List String}
    (h : x ∈ patsVars (ingredientPatsAux app ings)) :
    x = "res" ∨ ∃ suf, x = "ext_ing" ++ suf ∨ x = "ing" ++ suf ∨ x = "ing_name" ++ suf := by
  induction ings generalizing app with
  | nil => simp [ingredientPatsAux, patsVars] at h
  | cons ing rest ih =>
    simp only [ingredientPatsAux, patsVars, List.flatMap_append, List.mem_append] at h
    rcases h with h | h
    · simp [ingredientPats, patVars, termVars, List.flatMap] at h
      rcases h with h | h | h | h
      · exact Or.inl h
      · exact Or.inr ⟨app, Or.inl h⟩
      · exact Or.inr ⟨app, Or.inr (Or.inl h)⟩
      · exact Or.inr ⟨app, Or.inr (Or.inr h)⟩
    · exact ih (by simpa [patsVars] using h)

/-- Neither `type` nor `type_name` occurs among the ingredient-section
variables. -/
theorem type_notin_ingredient {x : String} (hx : x = "type" ∨ x = "type_name")
    (f : Filters) : x ∉ patsVars (ingredientSectionPats f) := by
  intro h
  have hmem : x ∈ patsVars (ingredientPatsAux "a" (f.ingredients.getD [])) := by
    cases hi : f.ingredients with
    | none => rw [ingredientSectionPats, hi] at h; simp [patsVars] at h
    | some ings => rw [ingredientSectionPats, hi] at h; simpa [hi] using h
  rcases mem_patsVars_ingredientPatsAux hmem with h1 | ⟨suf, h1 | h1 | h1⟩
  · rcases hx with hx | hx <;> subst hx <;> simp at h1
  · rcases hx with hx | hx <;> subst hx
    · exact ne_append_of_head "ext_ing" "type" 'e' 't' (by decide) (by decide)
        (by decide) suf h1
    · exact ne_append_of_head "ext_ing" "type_name" 'e' 't' (by decide) (by decide)
        (by decide) suf h1
  · rcases hx with hx | hx <;> subst hx
    · exact ne_append_of_head "ing" "type" 'i' 't' (by decide) (by decide)
        (by decide) suf h1
    · exact ne_append_of_head "ing" "type_name" 'i' 't' (by decide) (by decide)
        (by decide) suf h1
  · rcases hx with hx | hx <;> subst hx
    · exact ne_append_of_head "ing_name" "type" 'i' 't' (by decide) (by decide)
        (by decide) suf h1
    · exact ne_append_of_head "ing_name" "type_name" 'i' 't' (by decide) (by decide)
        (by decide) suf h1

theorem type_notin_pre {x : String} (hx : x = "type" ∨ x = "type_name") (f : Filters) :
    x ∉ patsVars (preMealPats f) := by
  intro h
  simp only [preMealPats, patsVars, List.flatMap_append, List.mem_append] at h
  rcases h with (h | h) | h
  · rcases hx with hx | hx <;> subst hx <;> simp [patVars, termVars, List.flatMap] at h
  · exact type_notin_ingredient hx f (by simpa [patsVars] using h)
  · have hd : x ∈ patsVars (dietarySectionPats f) := by simpa [patsVars] using h
    rcases hx with hx | hx <;> subst hx <;>
      rcases hv1 : f.vegan with _ | b1 <;> rcases hv2 : f.vegetarian with _ | b2 <;>
      simp [dietarySectionPats, patsVars, patVars, termVars, hv1, hv2] at hd

theorem notin_nutrientPats {x n : String}
    (opts : Option Int × Option Int × Option Int × Option Int)
    (h1 : x ≠ "res") (h2 : x ≠ n) (h3 : x ≠ n ++ "_amount") :
    x ∉ patsVars (nutrientPats n opts) := by
  obtain ⟨o1, o2, o3, o4⟩ := opts
  cases o1 <;> cases o2 <;> cases o3 <;> cases o4 <;>
    simp [nutrientPats, patsVars, patVars, termVars, List.flatMap, h1, h2, h3]

theorem type_notin_post {x : String} (hx : x = "type" ∨ x = "type_name") (f : Filters) :
    x ∉ patsVars (postMealPats f) := by
  have hxr : x ≠ "res" := by rcases hx with hx | hx <;> subst hx <;> decide
  intro h
  simp only [postMealPats, patsVars, List.flatMap_append, List.mem_append] at h
  rcases h with (h | h) | h
  · rcases hx with hx | hx <;> subst hx <;>
      rcases ht : f.time with _ | t <;> rcases hd : f.difficulty with _ | dv <;>
      simp [timeDifficultySectionPats, patsVars, patVars, termVars, ht, hd] at h
  · have h' : x ∈ patsVars (nutrientSectionPats f) := by simpa [patsVars] using h
    simp only [nutrientSectionPats, patsVars, List.flatMap_append, List.mem_append] at h'
    have hc := fun n (hn2 : x ≠ n) (hn3 : x ≠ n ++ "_amount") opts =>
      notin_nutrientPats (x := x) (n := n) opts hxr hn2 hn3
    rcases h' with ((h' | h') | h') | h'
    · exact hc "calories" (by rcases hx with hx | hx <;> subst hx <;> decide)
        (by rcases hx with hx | hx <;> subst hx <;> decide) _ (by simpa [patsVars] using h')
    · exact hc "protein" (by rcases hx with hx | hx <;> subst hx <;> decide)
        (by rcases hx with hx | hx <;> subst hx <;> decide) _ (by simpa [patsVars] using h')
    · exact hc "fat" (by rcases hx with hx | hx <;> subst hx <;> decide)
        (by rcases hx with hx | hx <;> subst hx <;> decide) _ (by simpa [patsVars] using h')
    · exact hc "carbohydrates" (by rcases hx with hx | hx <;> subst hx <;> decide)
        (by rcases hx with hx | hx <;> subst hx <;> decide) _ (by simpa [patsVars] using h')
  · have h' : x ∈ patsVars requiredSectionPats := by simpa [patsVars] using h
    rcases hx with hx | hx <;> subst hx <;> revert h' <;> decide

/-- The body splits around the meal-type section. -/
theorem bodyPats_decomp (f : Filters) :
    bodyPats f = preMealPats f ++ (mealTypeSectionPats f ++ postMealPats f) := by
  simp [bodyPats, preMealPats, postMealPats]

theorem mem_bodyPats_required {f : Filters} {p : Pat} (h : p ∈ requiredSectionPats) :
    p ∈ bodyPats f := by
  simp only [bodyPats, List.mem_append]
  tauto

theorem mem_bodyPats_dietary {f : Filters} {p : Pat} (h : p ∈ dietarySectionPats f) :
    p ∈ bodyPats f := by
  simp only [bodyPats, List.mem_append]
  tauto

theorem mem_bodyPats_meal {f : Filters} {p : Pat} (h : p ∈ mealTypeSectionPats f) :
    p ∈ bodyPats f := by
  simp only [bodyPats, List.mem_append]
  tauto

theorem mem_bodyPats_timeDiff {f : Filters} {p : Pat}
    (h : p ∈ timeDifficultySectionPats f) : p ∈ bodyPats f := by
  simp only [bodyPats, List.mem_append]
  tauto

theorem mem_bodyPats_nutrient {f : Filters} {p : Pat} (h : p ∈ nutrientSectionPats f) :
    p ∈ bodyPats f := by
  simp only [bodyPats, List.mem_append]
  tauto

theorem mem_dietary_vegan (f : Filters) :
    Pat.triple (Term.var "res") "feinschmecker:is_vegan" (Term.var "vegan") ∈
      dietarySectionPats f := by
  rcases hv1 : f.vegan with _ | b1 <;> rcases hv2 : f.vegetarian with _ | b2 <;>
    simp [dietarySectionPats, hv1, hv2]

theorem mem_dietary_vegetarian (f : Filters) :
    Pat.triple (Term.var "res") "feinschmecker:is_vegetarian" (Term.var "vegetarian") ∈
      dietarySectionPats f := by
  rcases hv1 : f.vegan with _ | b1 <;> rcases hv2 : f.vegetarian with _ | b2 <;>
    simp [dietarySectionPats, hv1, hv2]

theorem mem_timeDiff_time (f : Filters) :
    Pat.triple (Term.var "res") "feinschmecker:requires_time" (Term.var "time") ∈
      timeDifficultySectionPats f := by
  rcases ht : f.time with _ | t <;> rcases hd : f.difficulty with _ | dv <;>
    simp [timeDifficultySectionPats, ht, hd]

theorem mem_timeDiff_timeAmt (f : Filters) :
    Pat.triple (Term.var "time") "feinschmecker:amount_of_time" (Term.var "time_amount") ∈
      timeDifficultySectionPats f := by
  rcases ht : f.time with _ | t <;> rcases hd : f.difficulty with _ | dv <;>
    simp [timeDifficultySectionPats, ht, hd]

theorem mem_timeDiff_diff (f : Filters) :
    Pat.triple (Term.var "res") "feinschmecker:has_difficulty" (Term.var "difficulty") ∈
      timeDifficultySectionPats f := by
  rcases ht : f.time with _ | t <;> rcases hd : f.difficulty with _ | dv <;>
    simp [timeDifficultySectionPats, ht, hd]

theorem mem_timeDiff_diffAmt (f : Filters) :
    Pat.triple (Term.var "difficulty") "feinschmecker:has_numeric_difficulty"
      (Term.var "difficulty_amount") ∈ timeDifficultySectionPats f := by
  rcases ht : f.time with _ | t <;> rcases hd : f.difficulty with _ | dv <;>
    simp [timeDifficultySectionPats, ht, hd]

theorem mem_nutrientPats_first (n : String)
    (opts : Option Int × Option Int × Option Int × Option Int) :
    Pat.triple (Term.var "res") ("feinschmecker:has_" ++ n) (Term.var n) ∈
      nutrientPats n opts := by
  simp [nutrientPats]

theorem mem_nutrientPats_second (n : String)
    (opts : Option Int × Option Int × Option Int × Option Int) :
    Pat.triple (Term.var n) ("feinschmecker:amount_of_" ++ n) (Term.var (n ++ "_amount")) ∈
      nutrientPats n opts := by
  simp [nutrientPats]

/-- Every solution of the generated body satisfies each listed pattern. -/
theorem solutions_holds {rx : String → String → Bool} {T : List Triple} {f : Filters}
    {b : Binding} (hb : b ∈ solutions rx T f) {p : Pat} (hp : p ∈ bodyPats f) :
    PatHolds rx T b p := by
  have hb' : b ∈ evalPats rx T (bodyPats f) [([] : Binding)] := hb
  obtain ⟨b0, _, _, _, hholds⟩ := mem_evalPats_props hb'
  exact hholds p hp

/-- Every solution binds `?res` to an individual typed Recipe. -/
theorem solutions_res {rx : String → String → Bool} {T : List Triple} {f : Filters}
    {b : Binding} (hb : b ∈ solutions rx T f) :
    ∃ r, lookupVar b "res" = some (Value.ent r) ∧
      (r, "rdf:type", Value.ent "feinschmecker:Recipe") ∈ T := by
  have hp : Pat.triple (Term.var "res") "rdf:type" (Term.ent "feinschmecker:Recipe") ∈
      bodyPats f := by
    simp [bodyPats]
  have hh := solutions_holds hb hp
  obtain ⟨e, v, hT, hs, ho⟩ := hh
  simp only [evalTerm] at hs ho
  have hv : v = Value.ent "feinschmecker:Recipe" := (Option.some.inj ho).symm
  subst hv
  exact ⟨e, hs, hT⟩

/-- With no meal-type filter, `?type_name` is determined by the recipe
bound to `?res`: it is the recipe's unique meal-type name when the chain
exists in the store, and unbound otherwise (left-join semantics). -/
theorem typeName_char_optional {rx : String → String → Bool} {T : List Triple}
    {f : Filters} {b : Binding} (hwf : StoreWF T) (hm : f.meal_type = Option.none)
    (hb : b ∈ solutions rx T f) {r : String}
    (hres : lookupVar b "res" = some (Value.ent r)) :
    (¬ MealChain T r → lookupVar b "type_name" = Option.none) ∧
    (∀ ty v, (r, "feinschmecker:is_meal_type", Value.ent ty) ∈ T →
      (ty, "feinschmecker:has_meal_type_name", v) ∈ T →
      lookupVar b "type_name" = some v) := by
  have hmeal : mealTypeSectionPats f =
      [Pat.optional2 (Term.var "res") "feinschmecker:is_meal_type" (Term.var "type")
        (Term.var "type") "feinschmecker:has_meal_type_name" (Term.var "type_name")] := by
    simp [mealTypeSectionPats, hm]
  have hb' : b ∈ evalPats rx T (postMealPats f)
      (evalPat rx T (Pat.optional2 (Term.var "res") "feinschmecker:is_meal_type"
          (Term.var "type") (Term.var "type") "feinschmecker:has_meal_type_name"
          (Term.var "type_name"))
        (evalPats rx T (preMealPats f) [([] : Binding)])) := by
    have : b ∈ evalPats rx T (bodyPats f) [([] : Binding)] := hb
    rw [bodyPats_decomp f, evalPats_append, evalPats_append, hmeal] at this
    simpa [evalPats] using this
  obtain ⟨c1, hc1, hext1, hfr1, _⟩ := mem_evalPats_props hb'
  have htn1 : lookupVar b "type_name" = lookupVar c1 "type_name" :=
    hfr1 _ (type_notin_post (Or.inr rfl) f)
  obtain ⟨b0, hb0, hcase⟩ := mem_evalPat_opt hc1
  obtain ⟨binit, hbinit, _, hfr0, hpreholds⟩ := mem_evalPats_props hb0
  have hbi : binit = ([] : Binding) := by simpa using hbinit
  subst hbi
  have hty0 : lookupVar b0 "type" = Option.none := by
    rw [hfr0 _ (type_notin_pre (Or.inl rfl) f)]; rfl
  have htn0 : lookupVar b0 "type_name" = Option.none := by
    rw [hfr0 _ (type_notin_pre (Or.inr rfl) f)]; rfl
  have hres0 : lookupVar b0 "res" = some (Value.ent r) := by
    have hp1 : Pat.triple (Term.var "res") "rdf:type" (Term.ent "feinschmecker:Recipe") ∈
        preMealPats f := by simp [preMealPats]
    obtain ⟨e, v, hT, hs, ho⟩ := hpreholds _ hp1
    simp only [evalTerm] at hs
    have hext10 : Extends c1 b0 := by
      rcases hcase with ⟨heq, _⟩ | ⟨hext, _, _⟩
      · subst heq; exact Extends.rfl
      · exact hext
    have : lookupVar b "res" = some (Value.ent e) := hext1 _ _ (hext10 _ _ hs)
    rw [hres] at this
    have he : e = r := (Value.ent.inj (Option.some.inj this)).symm
    subst he
    exact hs
  rcases hcase with ⟨heq, hempty⟩ | ⟨hext, hsat1, hsat2⟩
  · subst heq
    constructor
    · intro _
      rw [htn1, htn0]
    · intro ty v h1 h2
      exact absurd hempty (optMeal_ext_ne_nil hres0 hty0 htn0 h1 h2)
  · obtain ⟨e1, w, hT1, hsres, hsty⟩ := hsat1
    obtain ⟨e2, v2, hT2, hs2, ho2⟩ := hsat2
    simp only [evalTerm] at hsres hsty hs2 ho2
    have he1 : e1 = r := by
      have := hext1 _ _ hsres
      rw [hres] at this
      exact (Value.ent.inj (Option.some.inj this)).symm
    rw [he1] at hT1
    have hw : w = Value.ent e2 := by
      rw [hsty] at hs2
      exact Option.some.inj hs2
    subst hw
    constructor
    · intro hno
      exact absurd ⟨e2, v2, hT1, hT2⟩ hno
    · intro ty v h1 h2
      have hety : e2 = ty := Value.ent.inj (hwf.fMeal r _ _ hT1 h1)
      subst hety
      have hv2 : v2 = v := hwf.fMealName e2 v2 v hT2 h2
      subst hv2
      rw [htn1, ho2]

/-- One functional step over a triple pattern of the generated body. -/
theorem det_of_mem {rx : String → String → Bool} {T : List Triple} {f : Filters}
    {b1 b2 : Binding} {y p x : String} (hf : FuncProp T p)
    (hmem : Pat.triple (Term.var y) p (Term.var x) ∈ bodyPats f)
    (h1 : b1 ∈ solutions rx T f) (h2 : b2 ∈ solutions rx T f)
    (hy : lookupVar b1 y = lookupVar b2 y) :
    lookupVar b1 x = lookupVar b2 x :=
  detStep hf (solutions_holds h1 hmem) (solutions_holds h2 hmem) hy

/-- Two solutions with the same `?res` agree on `?type_name`. -/
theorem typeName_det {rx : String → String → Bool} {T : List Triple} {f : Filters}
    {b1 b2 : Binding} (hwf : StoreWF T)
    (h1 : b1 ∈ solutions rx T f) (h2 : b2 ∈ solutions rx T f)
    (hres : lookupVar b1 "res" = lookupVar b2 "res") :
    lookupVar b1 "type_name" = lookupVar b2 "type_name" := by
  cases hm : f.meal_type with
  | some mt =>
    have hmem1 : Pat.triple (Term.var "res") "feinschmecker:is_meal_type"
        (Term.var "type") ∈ bodyPats f :=
      mem_bodyPats_meal (by simp [mealTypeSectionPats, hm])
    have hmem2 : Pat.triple (Term.var "type") "feinschmecker:has_meal_type_name"
        (Term.var "type_name") ∈ bodyPats f :=
      mem_bodyPats_meal (by simp [mealTypeSectionPats, hm])
    have hty := det_of_mem hwf.fMeal hmem1 h1 h2 hres
    exact det_of_mem hwf.fMealName hmem2 h1 h2 hty
  | none =>
    obtain ⟨r, hr1, _⟩ := solutions_res h1
    have hr2 : lookupVar b2 "res" = some (Value.ent r) := by rw [← hres]; exact hr1
    have hc1 := typeName_char_optional hwf hm h1 hr1
    have hc2 := typeName_char_optional hwf hm h2 hr2
    by_cases hmc : MealChain T r
    · obtain ⟨ty, v, hty, htn⟩ := hmc
      rw [hc1.2 ty v hty htn, hc2.2 ty v hty htn]
    · rw [hc1.1 hmc, hc2.1 hmc]

/-- Two solutions with the same `?res` have the same group key: every
projected scalar is determined by the recipe under the data-model
invariants. -/
theorem groupKey_det {rx : String → String → Bool} {T : List Triple} {f : Filters}
    {b1 b2 : Binding} (hwf : StoreWF T)
    (h1 : b1 ∈ solutions rx T f) (h2 : b2 ∈ solutions rx T f)
    (hres : lookupVar b1 "res" = lookupVar b2 "res") :
    groupKey b1 = groupKey b2 := by
  have hmemName : Pat.triple (Term.var "res") "feinschmecker:has_recipe_name"
      (Term.var "name") ∈ requiredSectionPats := by simp [requiredSectionPats]
  have hmemLink : Pat.triple (Term.var "res") "feinschmecker:has_link"
      (Term.var "link") ∈ requiredSectionPats := by simp [requiredSectionPats]
  have hmemImage : Pat.triple (Term.var "res") "feinschmecker:has_image_link"
      (Term.var "image_link") ∈ requiredSectionPats := by simp [requiredSectionPats]
  have hmemInstr : Pat.triple (Term.var "res") "feinschmecker:has_instructions"
      (Term.var "instructions") ∈ requiredSectionPats := by simp [requiredSectionPats]
  have hmemAuth : Pat.triple (Term.var "res") "feinschmecker:authored_by"
      (Term.var "author") ∈ requiredSectionPats := by simp [requiredSectionPats]
  have hmemAuthName : Pat.triple (Term.var "author") "feinschmecker:has_author_name"
      (Term.var "author_name") ∈ requiredSectionPats := by simp [requiredSectionPats]
  have hmemAuthOf : Pat.triple (Term.var "author") "feinschmecker:is_author_of"
      (Term.var "source") ∈ requiredSectionPats := by simp [requiredSectionPats]
  have hmemSrcName : Pat.triple (Term.var "source") "feinschmecker:has_source_name"
      (Term.var "source_name") ∈ requiredSectionPats := by simp [requiredSectionPats]
  have hmemWebsite : Pat.triple (Term.var "source") "feinschmecker:is_website"
      (Term.var "source_link") ∈ requiredSectionPats := by simp [requiredSectionPats]
  have hname := det_of_mem hwf.fName (mem_bodyPats_required hmemName) h1 h2 hres
  have hlink := det_of_mem hwf.fLink (mem_bodyPats_required hmemLink) h1 h2 hres
  have himage := det_of_mem hwf.fImage (mem_bodyPats_required hmemImage) h1 h2 hres
  have hinstr := det_of_mem hwf.fInstr (mem_bodyPats_required hmemInstr) h1 h2 hres
  have hvegan := det_of_mem hwf.fVegan
    (mem_bodyPats_dietary (mem_dietary_vegan f)) h1 h2 hres
  have hveget := det_of_mem hwf.fVeget
    (mem_bodyPats_dietary (mem_dietary_vegetarian f)) h1 h2 hres
  have htype := typeName_det hwf h1 h2 hres
  have htime := det_of_mem hwf.fTime
    (mem_bodyPats_timeDiff (mem_timeDiff_time f)) h1 h2 hres
  have htimeAmt := det_of_mem hwf.fTimeAmt
    (mem_bodyPats_timeDiff (mem_timeDiff_timeAmt f)) h1 h2 htime
  have hdiff := det_of_mem hwf.fDiff
    (mem_bodyPats_timeDiff (mem_timeDiff_diff f)) h1 h2 hres
  have hdiffAmt := det_of_mem hwf.fDiffAmt
    (mem_bodyPats_timeDiff (mem_timeDiff_diffAmt f)) h1 h2 hdiff
  have hmemCal1 : Pat.triple (Term.var "res") ("feinschmecker:has_" ++ "calories")
      (Term.var "calories") ∈ nutrientSectionPats f := by
    unfold nutrientSectionPats
    exact List.mem_append_left _ (List.mem_append_left _
      (List.mem_append_left _ (mem_nutrientPats_first "calories" _)))
  have hmemCal2 : Pat.triple (Term.var "calories") ("feinschmecker:amount_of_" ++ "calories")
      (Term.var ("calories" ++ "_amount")) ∈ nutrientSectionPats f := by
    unfold nutrientSectionPats
    exact List.mem_append_left _ (List.mem_append_left _
      (List.mem_append_left _ (mem_nutrientPats_second "calories" _)))
  have hmemProt1 : Pat.triple (Term.var "res") ("feinschmecker:has_" ++ "protein")
      (Term.var "protein") ∈ nutrientSectionPats f := by
    unfold nutrientSectionPats
    exact List.mem_append_left _ (List.mem_append_left _
      (List.mem_append_right _ (mem_nutrientPats_first "protein" _)))
  have hmemProt2 : Pat.triple (Term.var "protein") ("feinschmecker:amount_of_" ++ "protein")
      (Term.var ("protein" ++ "_amount")) ∈ nutrientSectionPats f := by
    unfold nutrientSectionPats
    exact List.mem_append_left _ (List.mem_append_left _
      (List.mem_append_right _ (mem_nutrientPats_second "protein" _)))
  have hmemFat1 : Pat.triple (Term.var "res") ("feinschmecker:has_" ++ "fat")
      (Term.var "fat") ∈ nutrientSectionPats f := by
    unfold nutrientSectionPats
    exact List.mem_append_left _
      (List.mem_append_right _ (mem_nutrientPats_first "fat" _))
  have hmemFat2 : Pat.triple (Term.var "fat") ("feinschmecker:amount_of_" ++ "fat")
      (Term.var ("fat" ++ "_amount")) ∈ nutrientSectionPats f := by
    unfold nutrientSectionPats
    exact List.mem_append_left _
      (List.mem_append_right _ (mem_nutrientPats_second "fat" _))
  have hmemCarb1 : Pat.triple (Term.var "res") ("feinschmecker:has_" ++ "carbohydrates")
      (Term.var "carbohydrates") ∈ nutrientSectionPats f := by
    unfold nutrientSectionPats
    exact List.mem_append_right _ (mem_nutrientPats_first "carbohydrates" _)
  have hmemCarb2 : Pat.triple (Term.var "carbohydrates")
      ("feinschmecker:amount_of_" ++ "carbohydrates")
      (Term.var ("carbohydrates" ++ "_amount")) ∈ nutrientSectionPats f := by
    unfold nutrientSectionPats
    exact List.mem_append_right _ (mem_nutrientPats_second "carbohydrates" _)
  have hfCal1 : FuncProp T ("feinschmecker:has_" ++ "calories") := hwf.fCal
  have hfCal2 : FuncProp T ("feinschmecker:amount_of_" ++ "calories") := hwf.fCalAmt
  have hfProt1 : FuncProp T ("feinschmecker:has_" ++ "protein") := hwf.fProt
  have hfProt2 : FuncProp T ("feinschmecker:amount_of_" ++ "protein") := hwf.fProtAmt
  have hfFat1 : FuncProp T ("feinschmecker:has_" ++ "fat") := hwf.fFat
  have hfFat2 : FuncProp T ("feinschmecker:amount_of_" ++ "fat") := hwf.fFatAmt
  have hfCarb1 : FuncProp T ("feinschmecker:has_" ++ "carbohydrates") := hwf.fCarb
  have hfCarb2 : FuncProp T ("feinschmecker:amount_of_" ++ "carbohydrates") := hwf.fCarbAmt
  have hcal := det_of_mem hfCal1 (mem_bodyPats_nutrient hmemCal1) h1 h2 hres
  have hcalAmt := det_of_mem hfCal2 (mem_bodyPats_nutrient hmemCal2) h1 h2 hcal
  have hprot := det_of_mem hfProt1 (mem_bodyPats_nutrient hmemProt1) h1 h2 hres
  have hprotAmt := det_of_mem hfProt2 (mem_bodyPats_nutrient hmemProt2) h1 h2 hprot
  have hfat := det_of_mem hfFat1 (mem_bodyPats_nutrient hmemFat1) h1 h2 hres
  have hfatAmt := det_of_mem hfFat2 (mem_bodyPats_nutrient hmemFat2) h1 h2 hfat
  have hcarb := det_of_mem hfCarb1 (mem_bodyPats_nutrient hmemCarb1) h1 h2 hres
  have hcarbAmt := det_of_mem hfCarb2 (mem_bodyPats_nutrient hmemCarb2) h1 h2 hcarb
  have hauth := det_of_mem hwf.fAuth (mem_bodyPats_required hmemAuth) h1 h2 hres
  have hauthName := det_of_mem hwf.fAuthName
    (mem_bodyPats_required hmemAuthName) h1 h2 hauth
  have hsource := det_of_mem hwf.fAuthOf (mem_bodyPats_required hmemAuthOf) h1 h2 hauth
  have hsrcName := det_of_mem hwf.fSrcName
    (mem_bodyPats_required hmemSrcName) h1 h2 hsource
  have hsrcLink := det_of_mem hwf.fWebsite
    (mem_bodyPats_required hmemWebsite) h1 h2 hsource
  simp only [groupKey, groupKeyVars, List.map_cons, List.map_nil]
  have hca : lookupVar b1 ("calories" ++ "_amount") = lookupVar b2 ("calories" ++ "_amount") :=
    hcalAmt
  have hpa : lookupVar b1 ("protein" ++ "_amount") = lookupVar b2 ("protein" ++ "_amount") :=
    hprotAmt
  have hfa : lookupVar b1 ("fat" ++ "_amount") = lookupVar b2 ("fat" ++ "_amount") :=
    hfatAmt
  have hcba : lookupVar b1 ("carbohydrates" ++ "_amount") =
      lookupVar b2 ("carbohydrates" ++ "_amount") := hcarbAmt
  rw [hname, hlink, himage, hinstr, hvegan, hveget, htype, htimeAmt, hdiffAmt,
    hauthName, hsrcName, hsrcLink]
  rw [show ("calories_amount" : String) = "calories" ++ "_amount" from rfl,
    show ("protein_amount" : String) = "protein" ++ "_amount" from rfl,
    show ("fat_amount" : String) = "fat" ++ "_amount" from rfl,
    show ("carbohydrates_amount" : String) = "carbohydrates" ++ "_amount" from rfl,
    hca, hpa, hfa, hcba]

/-- Two solutions with the same group key have the same `?res`: the group
key contains `?name` and recipe names are unique. -/
theorem res_det {rx : String → String → Bool} {T : List Triple} {f : Filters}
    {b1 b2 : Binding} (hwf : StoreWF T)
    (h1 : b1 ∈ solutions rx T f) (h2 : b2 ∈ solutions rx T f)
    (hkey : groupKey b1 = groupKey b2) :
    lookupVar b1 "res" = lookupVar b2 "res" := by
  have hname : lookupVar b1 "name" = lookupVar b2 "name" := by
    have := congrArg (fun l => l.headI) hkey
    simpa [groupKey, groupKeyVars] using this
  have hmemName : Pat.triple (Term.var "res") "feinschmecker:has_recipe_name"
      (Term.var "name") ∈ bodyPats f :=
    mem_bodyPats_required (by simp [requiredSectionPats])
  exact injStep hwf.iName (solutions_holds h1 hmemName) (solutions_holds h2 hmemName) hname

/-- When two projections of a list identify elements the same way, the
projected images have equally many distinct values. -/
theorem dedup_length_eq_of_iff {γ α β : Type} [DecidableEq α] [DecidableEq β]
    (g1 : γ → α) (g2 : γ → β) :
    ∀ l : List γ, (∀ a ∈ l, ∀ b ∈ l, (g1 a = g1 b ↔ g2 a = g2 b)) →
      (l.map g1).dedup.length = (l.map g2).dedup.length := by
  intro l
  induction l with
  | nil => intro _; rfl
  | cons x xs ih =>
    intro h
    have hx : g1 x ∈ xs.map g1 ↔ g2 x ∈ xs.map g2 := by
      simp only [List.mem_map]
      constructor
      · rintro ⟨y, hy, he⟩
        exact ⟨y, hy, (h y (List.mem_cons_of_mem x hy) x (List.mem_cons_self x xs)).mp he⟩
      · rintro ⟨y, hy, he⟩
        exact ⟨y, hy, (h y (List.mem_cons_of_mem x hy) x (List.mem_cons_self x xs)).mpr he⟩
    have hrest := ih (fun a ha b hb =>
      h a (List.mem_cons_of_mem x ha) b (List.mem_cons_of_mem x hb))
    by_cases hm : g1 x ∈ xs.map g1
    · rw [List.map_cons, List.map_cons, List.dedup_cons_of_mem hm,
        List.dedup_cons_of_mem (hx.mp hm)]
      exact hrest
    · rw [List.map_cons, List.map_cons, List.dedup_cons_of_not_mem hm,
        List.dedup_cons_of_not_mem (fun hc => hm (hx.mpr hc))]
      simpa using hrest

/-! ### The pattern list renders to exactly the emitted WHERE text -/

theorem renderPats_append (A B : List Pat) :
    renderPats (A ++ B) = renderPats A ++ renderPats B := by
  induction A with
  | nil =>
    apply String.ext
    simp [renderPats, String.data_append]
  | cons p ps ih =>
    show renderPat p ++ renderPats (ps ++ B) = renderPat p ++ renderPats ps ++ renderPats B
    rw [ih, String.append_assoc]

set_option maxRecDepth 8000 in
theorem render_ingredientPats (app ing : String) :
    renderPats (ingredientPats app ing) = ingredientChunk app ing := by
  apply String.ext
  simp [renderPats, renderPat, renderTerm, ingredientPats, ingredientChunk,
    String.data_append]

theorem render_ingredientAux (ings : List String) :
    ∀ app, renderPats (ingredientPatsAux app ings) = ingredientChunksAux app ings := by
  induction ings with
  | nil => intro app; rfl
  | cons ing rest ih =>
    intro app
    rw [ingredientPatsAux, ingredientChunksAux, renderPats_append,
      render_ingredientPats, ih]

theorem render_ingredientSection (f : Filters) :
    renderPats (ingredientSectionPats f) = ingredientSection f := by
  cases hi : f.ingredients with
  | none => simp [ingredientSectionPats, ingredientSection, hi, renderPats]
  | some ings => simp [ingredientSectionPats, ingredientSection, hi, render_ingredientAux]

set_option maxRecDepth 8000 in
theorem render_dietarySection (f : Filters) :
    renderPats (dietarySectionPats f) = dietarySection f := by
  rcases hv1 : f.vegan with _ | b1 <;> rcases hv2 : f.vegetarian with _ | b2
  all_goals
    simp only [dietarySectionPats, dietarySection, hv1, hv2]
    apply String.ext
    simp [renderPats, renderPat, renderTerm, String.data_append]

set_option maxRecDepth 8000 in
theorem render_mealTypeSection (f : Filters) :
    renderPats (mealTypeSectionPats f) = mealTypeSection f := by
  cases hm : f.meal_type with
  | none =>
    simp only [mealTypeSectionPats, mealTypeSection, hm]
    apply String.ext
    simp [renderPats, renderPat, renderTerm, String.data_append]
  | some mt =>
    simp only [mealTypeSectionPats, mealTypeSection, hm]
    apply String.ext
    simp [renderPats, renderPat, renderTerm, String.data_append]

set_option maxRecDepth 8000 in
theorem render_timeDifficultySection (f : Filters) :
    renderPats (timeDifficultySectionPats f) = timeDifficultySection f := by
  rcases ht : f.time with _ | t <;> rcases hd : f.difficulty with _ | dv
  all_goals
    simp only [timeDifficultySectionPats, timeDifficultySection, ht, hd, renderPats_append]
    apply String.ext
    simp [renderPats, renderPat, renderTerm, String.data_append]

set_option maxRecDepth 8000 in
theorem render_nutrientPats (n : String)
    (opts : Option Int × Option Int × Option Int × Option Int) :
    renderPats (nutrientPats n opts) = nutrientChunk n opts := by
  obtain ⟨o1, o2, o3, o4⟩ := opts
  cases o1 <;> cases o2 <;> cases o3 <;> cases o4
  all_goals
    simp only [nutrientPats, nutrientChunk, renderPats_append]
    apply String.ext
    simp [renderPats, renderPat, renderTerm, String.data_append]

theorem render_nutrientSection (f : Filters) :
    renderPats (nutrientSectionPats f) = nutrientSection f := by
  simp only [nutrientSectionPats, nutrientSection, renderPats_append, render_nutrientPats]

set_option maxRecDepth 8000 in
theorem render_requiredSection : renderPats requiredSectionPats = requiredSection := by
  apply String.ext
  simp [renderPats, renderPat, renderTerm, requiredSectionPats, requiredSection,
    String.data_append]

theorem funcProp_of_B {T : List Triple} {p : String} (h : funcPropB T p = true) :
    FuncProp T p := by
  intro s v w h1 h2
  simp only [funcPropB, List.all_eq_true] at h
  have := h (s, p, v) h1 (s, p, w) h2
  simpa using this

theorem injProp_of_B {T : List Triple} {p : String} (h : injPropB T p = true) :
    InjProp T p := by
  intro s1 s2 v h1 h2
  simp only [injPropB, List.all_eq_true] at h
  have := h (s1, p, v) h1 (s2, p, v) h2
  simpa using this

theorem storeWF_of_B {T : List Triple} (h : storeWFB T = true) : StoreWF T := by
  simp only [storeWFB, Bool.and_eq_true] at h
  obtain ⟨⟨⟨⟨⟨⟨⟨⟨⟨⟨⟨⟨⟨⟨⟨⟨⟨⟨⟨⟨⟨⟨⟨⟨⟨h1, h2⟩, h3⟩, h4⟩, h5⟩, h6⟩, h7⟩, h8⟩, h9⟩, h10⟩,
    h11⟩, h12⟩, h13⟩, h14⟩, h15⟩, h16⟩, h17⟩, h18⟩, h19⟩, h20⟩, h21⟩, h22⟩, h23⟩,
    h24⟩, h25⟩, h26⟩ := h
  exact ⟨funcProp_of_B h1, funcProp_of_B h2, funcProp_of_B h3, funcProp_of_B h4,
    funcProp_of_B h5, funcProp_of_B h6, funcProp_of_B h7, funcProp_of_B h8,
    funcProp_of_B h9, funcProp_of_B h10, funcProp_of_B h11, funcProp_of_B h12,
    funcProp_of_B h13, funcProp_of_B h14, funcProp_of_B h15, funcProp_of_B h16,
    funcProp_of_B h17, funcProp_of_B h18, funcProp_of_B h19, funcProp_of_B h20,
    funcProp_of_B h21, funcProp_of_B h22, funcProp_of_B h23, funcProp_of_B h24,
    funcProp_of_B h25, injProp_of_B h26⟩

set_option maxRecDepth 8000 in
/-- The emitted WHERE block is exactly the rendering of the pattern list:
the evaluation model talks about the very query text the compiler builds. -/
theorem render_bodyCore (f : Filters) :
    bodyCore f = "\x7b" ++ renderPats (bodyPats f) ++ "\x7d" := by
  have hb : renderPats (bodyPats f) =
      renderPat (Pat.triple (Term.var "res") "rdf:type" (Term.ent "feinschmecker:Recipe")) ++
      renderPats (ingredientSectionPats f) ++ renderPats (dietarySectionPats f) ++
      renderPats (mealTypeSectionPats f) ++ renderPats (timeDifficultySectionPats f) ++
      renderPats (nutrientSectionPats f) ++ renderPats requiredSectionPats := by
    simp only [bodyPats, renderPats_append, String.append_assoc]
    simp [renderPats, String.append_assoc]
  rw [hb, render_ingredientSection, render_dietarySection, render_mealTypeSection,
    render_timeDifficultySection, render_nutrientSection, render_requiredSection]
  apply String.ext
  simp [bodyCore, renderPat, renderTerm, String.data_append]

/-- C1: For every filter set F, the value returned by the count query
(COUNT(DISTINCT recipe) over the same WHERE body, without GROUP BY and
without LIMIT/OFFSET) equals the number of rows returned by the result
query for F when executed without pagination.  The two queries share the
WHERE block `bodyCore` verbatim (second and third conjuncts, where the
count query carries no GROUP BY/LIMIT/OFFSET), and over any store
satisfying the data-model invariants (`StoreWF`: the projected scalar
chains are single-valued and recipe names unique) the count of distinct
`?res` bindings equals the number of grouped result rows.
`groupByClean` records the proviso under which the source's
string split at the GROUP BY marker is the chunk-level split modelled by
`build_count_query`. -/
theorem count_query_agrees_with_result_rows (rx : String → String → Bool)
    (T : List Triple) (f : Filters) (hwf : StoreWF T) (hclean : f.groupByClean) :
    countDistinctRes rx T f = resultRowCount rx T f ∧
    build_count_query f = countHeader ++ bodyCore f ∧
    build_query f Option.none Option.none = finalHeader ++ " " ++ (bodyCore f ++ groupByStr) := by
  refine ⟨?_, rfl, rfl⟩
  apply dedup_length_eq_of_iff (fun b => lookupVar b "res") groupKey
  intro a ha b hb
  exact ⟨fun h => groupKey_det hwf ha hb h, fun h => res_det hwf ha hb h⟩

set_option maxHeartbeats 4000000 in
/-- Witness for C1 on a concrete store and the filter set
`ingredients=["egg","flour"]`: one matching recipe, count 1, one row. -/
theorem count_query_agrees_with_result_rows_witness :
    countDistinctRes rx0 c1T fC1 = resultRowCount rx0 c1T fC1 ∧
    countDistinctRes rx0 c1T fC1 = 1 := by
  have hwf : StoreWF c1T := storeWF_of_B (by decide)
  have hclean : fC1.groupByClean := by
    constructor
    · intro ings hi i hiings
      simp [fC1] at hi
      subst hi
      fin_cases hiings <;> decide
    · intro mt hmt
      simp [fC1] at hmt
  exact ⟨(count_query_agrees_with_result_rows rx0 c1T fC1 hwf hclean).1, by decide⟩

/-! ### C2: ingredient filters are conjunctive -/

theorem growA_length (n : Nat) : (growA n).length = n := by
  induction n with
  | zero => rfl
  | succ n ih =>
    have h1 : ("a" : String).length = 1 := rfl
    rw [growA, String.length_append, ih, h1]
    omega

theorem ingSuffix_length (i : Nat) : (ingSuffix i).length = i + 1 := by
  have h1 : ("a" : String).length = 1 := rfl
  rw [ingSuffix, String.length_append, growA_length, h1]
  omega

theorem ingSuffix_inj {i j : Nat} (h : ingSuffix i = ingSuffix j) : i = j := by
  have := congrArg String.length h
  rw [ingSuffix_length, ingSuffix_length] at this
  omega

/-- The patterns of the i-th ingredient filter, with the i-th suffix, are
among the emitted ingredient-section patterns. -/
theorem ingredientPats_mem_aux :
    ∀ (ings : List String) (app : String) (i : Nat) (h : i < ings.length),
      ∀ q ∈ ingredientPats (app ++ growA i) (ings.get ⟨i, h⟩),
        q ∈ ingredientPatsAux app ings := by
  intro ings
  induction ings with
  | nil => intro app i h; exact absurd h (by simp)
  | cons ing rest ih =>
    intro app i h q hq
    cases i with
    | zero =>
      simp only [ingredientPatsAux]
      apply List.mem_append_left
      have he : app ++ growA 0 = app := by
        apply String.ext
        simp [growA, String.data_append]
      rw [he] at hq
      simpa using hq
    | succ i =>
      simp only [ingredientPatsAux]
      apply List.mem_append_right
      have he : app ++ growA (i + 1) = (app ++ "a") ++ growA i := by
        rw [growA, String.append_assoc]
      rw [he] at hq
      have hlt : i < rest.length := by simpa using h
      have hg : (ing :: rest).get ⟨i + 1, h⟩ = rest.get ⟨i, hlt⟩ := rfl
      rw [hg] at hq
      exact ih (app ++ "a") i hlt q hq

theorem mem_bodyPats_ingredient {f : Filters} {p : Pat}
    (h : p ∈ ingredientSectionPats f) : p ∈ bodyPats f := by
  simp only [bodyPats, List.mem_append]
  tauto

/-- The i-th ingredient chunk is a substring of the emitted chunks. -/
theorem ingredientChunk_infix_aux :
    ∀ (ings : List String) (app : String) (i : Nat) (h : i < ings.length),
      (ingredientChunk (app ++ growA i) (ings.get ⟨i, h⟩)).data <:+:
        (ingredientChunksAux app ings).data := by
  intro ings
  induction ings with
  | nil => intro app i h; exact absurd h (by simp)
  | cons ing rest ih =>
    intro app i h
    cases i with
    | zero =>
      have he : app ++ growA 0 = app := by
        apply String.ext
        simp [growA, String.data_append]
      rw [he]
      show (ingredientChunk app ing).data <:+: (ingredientChunksAux app (ing :: rest)).data
      rw [ingredientChunksAux, String.data_append]
      exact (List.prefix_append _ _).isInfix
    | succ i =>
      have he : app ++ growA (i + 1) = (app ++ "a") ++ growA i := by
        rw [growA, String.append_assoc]
      rw [he]
      have hlt : i < rest.length := by simpa using h
      have hg : (ing :: rest).get ⟨i + 1, h⟩ = rest.get ⟨i, hlt⟩ := rfl
      rw [hg]
      have hin := ih (app ++ "a") i hlt
      obtain ⟨s, t, hst⟩ := hin
      refine ⟨(ingredientChunk app ing).data ++ s, t, ?_⟩
      rw [ingredientChunksAux, String.data_append, ← hst]
      simp [List.append_assoc]

/-- Every solution satisfies the i-th ingredient filter: some ingredient
name of the bound recipe regex-matches the i-th substring. -/
theorem solutions_ingredient_conj {rx : String → String → Bool} {T : List Triple}
    {f : Filters} {ings : List String} (hi : f.ingredients = some ings)
    {b : Binding} (hb : b ∈ solutions rx T f) (i : Nat) (h : i < ings.length) :
    ∃ r iw ingE nm,
      lookupVar b "res" = some (Value.ent r) ∧
      (r, "feinschmecker:has_ingredient", Value.ent iw) ∈ T ∧
      (iw, "feinschmecker:type_of_ingredient", Value.ent ingE) ∈ T ∧
      (ingE, "feinschmecker:has_ingredient_name", Value.str nm) ∈ T ∧
      rx nm (ings.get ⟨i, h⟩) = true := by
  have hsec : ∀ q ∈ ingredientPats (ingSuffix i) (ings.get ⟨i, h⟩),
      q ∈ ingredientSectionPats f := by
    intro q hq
    rw [ingredientSectionPats, hi]
    exact ingredientPats_mem_aux ings "a" i h q (by rwa [ingSuffix] at hq)
  have hold1 := solutions_holds hb (mem_bodyPats_ingredient (hsec
    (Pat.triple (Term.var "res") "feinschmecker:has_ingredient"
      (Term.var ("ext_ing" ++ ingSuffix i))) (by simp [ingredientPats])))
  have hold2 := solutions_holds hb (mem_bodyPats_ingredient (hsec
    (Pat.triple (Term.var ("ext_ing" ++ ingSuffix i)) "feinschmecker:type_of_ingredient"
      (Term.var ("ing" ++ ingSuffix i))) (by simp [ingredientPats])))
  have hold3 := solutions_holds hb (mem_bodyPats_ingredient (hsec
    (Pat.triple (Term.var ("ing" ++ ingSuffix i)) "feinschmecker:has_ingredient_name"
      (Term.var ("ing_name" ++ ingSuffix i))) (by simp [ingredientPats])))
  have hold4 := solutions_holds hb (mem_bodyPats_ingredient (hsec
    (Pat.filterRegexCI ("ing_name" ++ ingSuffix i) (ings.get ⟨i, h⟩))
    (by simp [ingredientPats])))
  obtain ⟨r1, w1, hT1, hs1, ho1⟩ := hold1
  obtain ⟨e2, w2, hT2, hs2, ho2⟩ := hold2
  obtain ⟨e3, w3, hT3, hs3, ho3⟩ := hold3
  obtain ⟨nm, hlk, hrx⟩ := hold4
  simp only [evalTerm] at hs1 ho1 hs2 ho2 hs3 ho3
  have hw1 : w1 = Value.ent e2 := by rw [ho1] at hs2; exact Option.some.inj hs2
  have hw2 : w2 = Value.ent e3 := by rw [ho2] at hs3; exact Option.some.inj hs3
  have hw3 : w3 = Value.str nm := by rw [ho3] at hlk; exact Option.some.inj hlk
  subst hw1; subst hw2; subst hw3
  exact ⟨r1, e2, e3, nm, hs1, hT1, hT2, hT3, hrx⟩

/-- C2: For every non-empty list of ingredient substrings, the compiled
query contains one case-insensitive regex-match join per substring, each
using a distinct join-variable suffix (the suffixes `a`, `aa`, ... are
injective in the position), so that a recipe satisfies the query only if
every listed substring matches some ingredient name of that recipe
(conjunction, not alternative): every solution carries, for each listed
substring, a `has_ingredient`/`type_of_ingredient`/`has_ingredient_name`
chain from the bound recipe whose name the engine's matcher accepts. -/
theorem ingredient_filters_are_conjunctive (rx : String → String → Bool)
    (T : List Triple) (f : Filters) (ings : List String)
    (hi : f.ingredients = some ings) (hne : ings ≠ []) :
    (∀ i j, ingSuffix i = ingSuffix j → i = j) ∧
    (∀ i (h : i < ings.length),
      (ingredientChunk (ingSuffix i) (ings.get ⟨i, h⟩)).data <:+: (bodyCore f).data) ∧
    (∀ b ∈ solutions rx T f, ∀ i (h : i < ings.length),
      ∃ r iw ingE nm,
        lookupVar b "res" = some (Value.ent r) ∧
        (r, "feinschmecker:has_ingredient", Value.ent iw) ∈ T ∧
        (iw, "feinschmecker:type_of_ingredient", Value.ent ingE) ∈ T ∧
        (ingE, "feinschmecker:has_ingredient_name", Value.str nm) ∈ T ∧
        rx nm (ings.get ⟨i, h⟩) = true) := by
  refine ⟨fun i j => ingSuffix_inj, ?_, ?_⟩
  · intro i h
    have hin : (ingredientChunk (ingSuffix i) (ings.get ⟨i, h⟩)).data <:+:
        (ingredientChunksAux "a" ings).data := by
      have := ingredientChunk_infix_aux ings "a" i h
      rwa [← ingSuffix] at this
    obtain ⟨s, t, hst⟩ := hin
    refine ⟨("\x7b?res rdf:type feinschmecker:Recipe . \n").data ++ s,
      t ++ (dietarySection f ++ mealTypeSection f ++ timeDifficultySection f ++
        nutrientSection f ++ requiredSection ++ "\x7d").data, ?_⟩
    have hbody : bodyCore f = "\x7b?res rdf:type feinschmecker:Recipe . \n" ++
        ingredientChunksAux "a" ings ++
        (dietarySection f ++ mealTypeSection f ++ timeDifficultySection f ++
          nutrientSection f ++ requiredSection ++ "\x7d") := by
      apply String.ext
      simp [bodyCore, ingredientSection, hi, String.data_append]
    rw [hbody]
    simp only [String.data_append, ← hst]
    simp [List.append_assoc]
  · intro b hb i h
    exact solutions_ingredient_conj hi hb i h

set_option maxHeartbeats 4000000 in
/-- Witness for C2 at the concrete store and
`ingredients=["egg","flour"]` (a filter set with two substrings whose
solution set is non-empty). -/
theorem ingredient_filters_are_conjunctive_witness :
    ((∀ i j, ingSuffix i = ingSuffix j → i = j) ∧
     (∀ i (h : i < (["egg", "flour"] : List String).length),
       (ingredientChunk (ingSuffix i) ((["egg", "flour"] : List String).get ⟨i, h⟩)).data <:+:
         (bodyCore fC1).data) ∧
     (∀ b ∈ solutions rx0 c1T fC1, ∀ i (h : i < (["egg", "flour"] : List String).length),
       ∃ r iw ingE nm,
         lookupVar b "res" = some (Value.ent r) ∧
         (r, "feinschmecker:has_ingredient", Value.ent iw) ∈ c1T ∧
         (iw, "feinschmecker:type_of_ingredient", Value.ent ingE) ∈ c1T ∧
         (ingE, "feinschmecker:has_ingredient_name", Value.str nm) ∈ c1T ∧
         rx0 nm ((["egg", "flour"] : List String).get ⟨i, h⟩) = true)) ∧
    solutions rx0 c1T fC1 ≠ [] :=
  ⟨ingredient_filters_are_conjunctive rx0 c1T fC1 ["egg", "flour"] rfl (by decide),
   by decide⟩

/-! ### C3: delete destroys the recipe but performs no orphan sweep -/

theorem find?_filter_ne {rid e : String} (hne : e ≠ rid) :
    ∀ l : List (String × String),
      (l.filter (fun p => p.1 ≠ rid)).find? (fun p => p.1 = e) =
        l.find? (fun p => p.1 = e) := by
  intro l
  induction l with
  | nil => rfl
  | cons p rest ih =>
    by_cases hp : p.1 = rid
    · have hfilter : (decide (p.1 ≠ rid)) = false := by simp [hp]
      have hfind : (decide (p.1 = e)) = false := by
        simp only [decide_eq_false_iff_not]
        exact fun h => hne (h ▸ hp)
      simp only [List.filter_cons, hfilter, Bool.false_eq_true, if_false, List.find?_cons,
        hfind, ih]
    · have hfilter : (decide (p.1 ≠ rid)) = true := by simp [hp]
      simp only [List.filter_cons, hfilter, if_true, List.find?_cons]
      cases hfind : decide (p.1 = e)
      · simpa using ih
      · simp

theorem getInd_destroy_self (o : Onto) (rid : String) :
    (destroyEntity o rid).getInd rid = Option.none := by
  simp only [destroyEntity, Onto.getInd]
  apply List.find?_eq_none.mpr
  intro x hx
  have hxm := (List.mem_filter.mp hx).2
  simp only [decide_eq_true_eq] at hxm ⊢
  exact hxm

theorem getInd_destroy_other (o : Onto) (rid e : String) (hne : e ≠ rid) :
    (destroyEntity o rid).getInd e = o.getInd e := by
  simp only [destroyEntity, Onto.getInd]
  have h := find?_filter_ne hne o.inds
  simpa using h

/-- The `.onto` component of the shared persist tail is always the mutated
world. -/
theorem persistTail_onto (cfg : CrudConfig) (persistOk : Bool) (o1 : Onto) (succ : Resp) :
    (persistTail cfg persistOk o1 succ).onto = some o1 := by
  unfold persistTail
  cases cfg.ontologyLocalPath <;> cases persistOk <;> rfl

/-- C3 (amended): delete resolves the target by name (NotFound when
absent), destroys it with cascading reference cleanup - the individual
disappears and every triple mentioning it is removed - but performs NO
orphan sweep afterwards: every other individual survives, whether it
still has inbound references or not; in particular shared nutrient/time
entities still referenced by a surviving recipe are untouched. -/
theorem delete_cascades_without_orphan_sweep (cfg : CrudConfig) (o : Onto)
    (persistOk : Bool) (rid : String) (h : (o.getInd rid).isSome = true) :
    (delete_recipe cfg (some o) persistOk rid).onto = some (destroyEntity o rid) ∧
    (destroyEntity o rid).getInd rid = Option.none ∧
    (∀ t ∈ (destroyEntity o rid).props, t.1 ≠ rid ∧ t.2.2 ≠ Value.ent rid) ∧
    (∀ e, e ≠ rid → (destroyEntity o rid).getInd e = o.getInd e) ∧
    (∀ t ∈ o.props, t.1 ≠ rid → t.2.2 ≠ Value.ent rid →
      t ∈ (destroyEntity o rid).props) := by
  obtain ⟨v, hv⟩ := Option.isSome_iff_exists.mp h
  refine ⟨?_, getInd_destroy_self o rid, ?_, fun e => getInd_destroy_other o rid e, ?_⟩
  · simp only [delete_recipe, hv]
    exact persistTail_onto cfg persistOk _ _
  · intro t ht
    have := (List.mem_filter.mp ht).2
    simpa using this
  · intro t ht h1 h2
    simp only [destroyEntity, List.mem_filter]
    exact ⟨ht, by simpa using ⟨h1, h2⟩⟩

/-- Counterexample to C3 as stated: deleting `pancakes` succeeds but the
`time_15` entity - previously linked, now with zero remaining inbound
references - is NOT removed (and the shared `calories_350` survives with
one reference, as does the unrelated `time_30`). -/
theorem delete_orphan_sweep_cex :
    (delete_recipe cfgWithPath (some c3Onto) true "pancakes").resp.isSuccess = true ∧
    ((delete_recipe cfgWithPath (some c3Onto) true "pancakes").onto.map
      (fun o => (o.hasInd "time_15", inboundRefs o "time_15",
        o.hasInd "calories_350", inboundRefs o "calories_350"))) =
      some (true, 0, true, 1) := by decide

/-- Witness for C3's amended theorem at the concrete two-recipe store. -/
theorem delete_cascades_without_orphan_sweep_witness :
    (delete_recipe cfgWithPath (some c3Onto) true "pancakes").onto =
      some (destroyEntity c3Onto "pancakes") ∧
    (destroyEntity c3Onto "pancakes").getInd "pancakes" = Option.none ∧
    (destroyEntity c3Onto "pancakes").getInd "calories_350" = c3Onto.getInd "calories_350" := by
  have h := delete_cascades_without_orphan_sweep cfgWithPath c3Onto true "pancakes" (by decide)
  exact ⟨h.1, h.2.1, h.2.2.2.1 "calories_350" (by decide)⟩

/-! ### C4: persistence before success, publication after persistence -/

theorem persistTail_resp_success {cfg : CrudConfig} {p : String} {persistOk : Bool}
    {o1 : Onto} {succ : Resp} (hp : cfg.ontologyLocalPath = some p)
    (h : (persistTail cfg persistOk o1 succ).resp.isSuccess = true) :
    persistOk = true ∧ (persistTail cfg persistOk o1 succ).persisted = true ∧
      (persistTail cfg persistOk o1 succ).published = true := by
  unfold persistTail at h ⊢
  rw [hp] at h ⊢
  cases persistOk with
  | true => exact ⟨rfl, rfl, rfl⟩
  | false => simp [error_response, Resp.isSuccess] at h

theorem persistTail_fail {cfg : CrudConfig} {p : String} {o1 : Onto} {succ : Resp}
    (hp : cfg.ontologyLocalPath = some p) :
    (persistTail cfg false o1 succ).resp =
      error_response "Failed to persist ontology to disk" "PERSIST_FAILED" [] 500 := by
  unfold persistTail
  rw [hp]
  rfl

/-- A successful create response can only come out of the persist tail. -/
theorem create_success_shape (cfg : CrudConfig) (onto : Option Onto) (persistOk : Bool)
    (now : Int) (payload : Option CrudData)
    (h : (create_recipe cfg onto persistOk now payload).resp.isSuccess = true) :
    ∃ o1 nm, create_recipe cfg onto persistOk now payload =
      persistTail cfg persistOk o1
        (Resp.success (RData.obj [("id", nm)]) Option.none (some "Recipe created")) := by
  rcases payload with _ | d
  · simp [create_recipe, Resp.isSuccess, validation_error_response, error_response] at h
  · rcases htitle : d.title with _ | t
    · simp [create_recipe, htitle, Resp.isSuccess, validation_error_response,
        error_response] at h
    · by_cases ht0 : t = ""
      · simp [create_recipe, htitle, ht0, Resp.isSuccess, validation_error_response,
          error_response] at h
      · by_cases hcontent : (strTruthyStripped d.instructions = true ∨
            hasIngredientsCheck d.ingredients = true ∨ strTruthyStripped d.link = true)
        · rcases onto with _ | o
          · simp [create_recipe, htitle, ht0, hcontent, Resp.isSuccess,
              validation_error_response, error_response] at h
          · by_cases hex : o.hasInd (sanitizeName t) = true
            · simp [create_recipe, htitle, ht0, hcontent, hex, Resp.isSuccess,
                validation_error_response, error_response] at h
            · by_cases hcls : "Recipe" ∈ o.classes
              · refine ⟨createBody cfg o d (sanitizeName t) t now, sanitizeName t, ?_⟩
                simp [create_recipe, htitle, ht0, hcontent, hex, hcls]
              · simp [create_recipe, htitle, ht0, hcontent, hex, hcls, Resp.isSuccess,
                  validation_error_response, error_response] at h
        · simp [create_recipe, htitle, ht0, hcontent, Resp.isSuccess,
            validation_error_response, error_response] at h

/-- A successful update response can only come out of the persist tail. -/
theorem update_success_shape (cfg : CrudConfig) (onto : Option Onto) (persistOk : Bool)
    (rid : String) (payload : Option CrudData)
    (h : (update_recipe cfg onto persistOk rid payload).resp.isSuccess = true) :
    ∃ o1, update_recipe cfg onto persistOk rid payload =
      persistTail cfg persistOk o1
        (Resp.success RData.noneD Option.none (some "Recipe updated")) := by
  rcases payload with _ | d
  · simp [update_recipe, Resp.isSuccess, validation_error_response, error_response] at h
  · rcases onto with _ | o
    · simp [update_recipe, Resp.isSuccess, validation_error_response, error_response] at h
    · rcases hind : o.getInd rid with _ | v
      · simp [update_recipe, hind, Resp.isSuccess, validation_error_response,
          error_response] at h
      · exact ⟨updateBody o d rid, by simp [update_recipe, hind]⟩

/-- A successful delete response can only come out of the persist tail. -/
theorem delete_success_shape (cfg : CrudConfig) (onto : Option Onto) (persistOk : Bool)
    (rid : String)
    (h : (delete_recipe cfg onto persistOk rid).resp.isSuccess = true) :
    ∃ o1, delete_recipe cfg onto persistOk rid =
      persistTail cfg persistOk o1
        (Resp.success RData.noneD Option.none (some "Recipe deleted successfully")) := by
  rcases onto with _ | o
  · simp [delete_recipe, Resp.isSuccess, validation_error_response, error_response] at h
  · rcases hind : o.getInd rid with _ | v
    · simp [delete_recipe, hind, Resp.isSuccess, validation_error_response,
        error_response] at h
    · exact ⟨destroyEntity o rid, by simp [delete_recipe, hind]⟩

/-- C4 (amended): when a backing-file path is configured, no mutation
reports success unless the temp-file write and atomic rename succeeded,
every success has persisted the store and then signalled the version
coordinator, and a mutation whose in-memory change went through but whose
persist failed answers PERSIST_FAILED.  (When no path is configured the
persist block is skipped and mutations report success without persisting
- see the counterexample.) -/
theorem mutations_persist_before_success (cfg : CrudConfig) (p : String)
    (hp : cfg.ontologyLocalPath = some p) (onto : Option Onto) (persistOk : Bool)
    (now : Int) (payload : Option CrudData) (rid : String) :
    ((create_recipe cfg onto persistOk now payload).resp.isSuccess = true →
      persistOk = true ∧ (create_recipe cfg onto persistOk now payload).persisted = true ∧
      (create_recipe cfg onto persistOk now payload).published = true) ∧
    ((update_recipe cfg onto persistOk rid payload).resp.isSuccess = true →
      persistOk = true ∧ (update_recipe cfg onto persistOk rid payload).persisted = true ∧
      (update_recipe cfg onto persistOk rid payload).published = true) ∧
    ((delete_recipe cfg onto persistOk rid).resp.isSuccess = true →
      persistOk = true ∧ (delete_recipe cfg onto persistOk rid).persisted = true ∧
      (delete_recipe cfg onto persistOk rid).published = true) ∧
    (∀ o, onto = some o → (o.getInd rid).isSome = true → persistOk = false →
      (delete_recipe cfg onto persistOk rid).resp =
        error_response "Failed to persist ontology to disk" "PERSIST_FAILED" [] 500) ∧
    (∀ o d, onto = some o → payload = some d → (o.getInd rid).isSome = true →
      persistOk = false →
      (update_recipe cfg onto persistOk rid payload).resp =
        error_response "Failed to persist ontology to disk" "PERSIST_FAILED" [] 500) := by
  refine ⟨?_, ?_, ?_, ?_, ?_⟩
  · intro h
    obtain ⟨o1, nm, he⟩ := create_success_shape cfg onto persistOk now payload h
    rw [he] at h ⊢
    exact persistTail_resp_success hp h
  · intro h
    obtain ⟨o1, he⟩ := update_success_shape cfg onto persistOk rid payload h
    rw [he] at h ⊢
    exact persistTail_resp_success hp h
  · intro h
    obtain ⟨o1, he⟩ := delete_success_shape cfg onto persistOk rid h
    rw [he] at h ⊢
    exact persistTail_resp_success hp h
  · intro o ho hind hpf
    subst ho; subst hpf
    obtain ⟨v, hv⟩ := Option.isSome_iff_exists.mp hind
    simp only [delete_recipe, hv]
    exact persistTail_fail hp
  · intro o d ho hd hind hpf
    subst ho; subst hd; subst hpf
    obtain ⟨v, hv⟩ := Option.isSome_iff_exists.mp hind
    simp only [update_recipe, hv]
    exact persistTail_fail hp

/-- Witness for C4's amended theorem: a delete whose persist fails answers
PERSIST_FAILED, and a successful delete has persisted and published. -/
theorem mutations_persist_before_success_witness :
    (delete_recipe cfgWithPath (some c3Onto) false "pancakes").resp =
      error_response "Failed to persist ontology to disk" "PERSIST_FAILED" [] 500 ∧
    (delete_recipe cfgWithPath (some c3Onto) true "pancakes").persisted = true ∧
    (delete_recipe cfgWithPath (some c3Onto) true "pancakes").published = true := by
  have h1 := mutations_persist_before_success cfgWithPath "/data/feinschmecker.nt" rfl
    (some c3Onto) false 0 Option.none "pancakes"
  have h2 := mutations_persist_before_success cfgWithPath "/data/feinschmecker.nt" rfl
    (some c3Onto) true 0 Option.none "pancakes"
  refine ⟨h1.2.2.2.1 c3Onto rfl (by decide) rfl, ?_, ?_⟩
  · exact (h2.2.2.1 (by decide)).2.1
  · exact (h2.2.2.1 (by decide)).2.2

/-- Counterexample to C4 as stated: with no backing-file path configured
the persist block is skipped entirely - the create reports success while
nothing was persisted. -/
theorem mutation_success_without_persist_cex :
    (create_recipe cfgNoPath (some emptyOnto) true 0 (some pancakesData)).resp.isSuccess
      = true ∧
    (create_recipe cfgNoPath (some emptyOnto) true 0 (some pancakesData)).persisted
      = false := by decide

/-! ### C8: name lookup without a type check -/

/-- C8: `_get_individual` resolves the identifier by name alone, with no
type check; `DELETE /recipes/crud/alice` on a store where `alice` names an
Author individual destroys that Author and reports
"Recipe deleted successfully" instead of a not-found error. -/
theorem delete_slug_collision_destroys_nonrecipe :
    (c8Onto.getInd "alice").map Prod.snd = some "Author" ∧
    (delete_recipe cfgWithPath (some c8Onto) true "alice").resp =
      Resp.success RData.noneD Option.none (some "Recipe deleted successfully") ∧
    ((delete_recipe cfgWithPath (some c8Onto) true "alice").onto.map
      (fun o => (o.hasInd "alice", o.props.length))) = some (false, 0) := by decide

/-! ### C10: create demands at least one of instructions/ingredients/link -/

/-- C10: a create payload with a (non-empty) title but none of a non-empty
instructions string, a non-empty ingredients list or string, and a
non-empty link is rejected with the dedicated validation error, and no
entity is created (the outcome carries the input world unchanged, nothing
persisted or published). -/
theorem create_requires_some_content (cfg : CrudConfig) (onto : Option Onto)
    (persistOk : Bool) (now : Int) (d : CrudData) (title : String)
    (ht : d.title = some title) (hne : title ≠ "")
    (h1 : strTruthyStripped d.instructions = false)
    (h2 : hasIngredientsCheck d.ingredients = false)
    (h3 : strTruthyStripped d.link = false) :
    create_recipe cfg onto persistOk now (some d) =
      ⟨validation_error_response
        [("body", "Provide at least one of: instructions, ingredients or link")],
       onto, false, false⟩ := by
  simp only [create_recipe]
  rw [ht]
  simp [hne, h1, h2, h3]

/-- Witness for C10: the title-only payload is rejected and the world is
untouched. -/
theorem create_requires_some_content_witness :
    create_recipe cfgWithPath (some emptyOnto) true 0 (some titleOnlyData) =
      ⟨validation_error_response
        [("body", "Provide at least one of: instructions, ingredients or link")],
       some emptyOnto, false, false⟩ :=
  create_requires_some_content cfgWithPath (some emptyOnto) true 0 titleOnlyData
    "Empty Recipe" rfl (by decide) (by decide) (by decide) (by decide)

/-! ### C7: the dual-failure branch loses both failure reasons -/

/-- C7: when task submission fails, the search runs synchronously and the
results are returned with the degraded-mode label (second conjunct); but
when the synchronous fallback also fails, the handler's call
`internal_error_response(.., details=[..])` raises `TypeError` (the
function takes no such parameter), so the outer handler answers the
generic message - neither the submission error nor the synchronous error
appears in the response, unlike the response the branch was written to
produce. -/
theorem get_recipes_dual_failure_drops_reasons :
    get_recipes (Except.error "broker unavailable")
        (Except.error "Ontology is not loaded in application context") 1 20 =
      internal_error_response "An error occurred while processing your request" ∧
    get_recipes (Except.error "broker unavailable") (Except.ok ([], 0)) 1 20 =
      Resp.success (RData.recipesList []) (some (1, 20, 0))
        (some "Returned synchronous results after Celery submission failure.") ∧
    internal_error_response "An error occurred while processing your request" ≠
      intendedDualFailureResp "broker unavailable"
        "Ontology is not loaded in application context" := by decide

/-! ### C6: reload on mismatch; version tokens are wall-clock seconds -/

/-- C6 (amended): a worker with a loaded ontology reloads whenever the
published version differs from its cached one or the chosen source URI
differs from the cached one; a mutation publishes the token
`str(int(time.time()))` (the current wall-clock second), so a cached
worker reloads when the newly published token differs from its cached
token - which holds across distinct seconds but not for two mutations
within the same second (see the counterexample). -/
theorem worker_reloads_on_version_mismatch (w : WorkerCache) (redis : RedisState)
    (uri : String) (localMtime : Option String) (g : String) (now : Nat)
    (cfgLocal : Option String) (hw : w.ontology = some g) :
    ((∃ rv, redis.version = some rv ∧ w.version ≠ some rv) →
      needReload w redis uri localMtime = true) ∧
    (some uri ≠ w.uriCached → needReload w redis uri localMtime = true) ∧
    (publishToRedis redis now cfgLocal).version = some (publishVersion now) ∧
    (∀ s, w.version = some s → publishVersion now ≠ s →
      needReload w ⟨some (publishVersion now), redis.uri, redis.localPath⟩ uri localMtime
        = true) := by
  refine ⟨?_, ?_, rfl, ?_⟩
  · rintro ⟨rv, hrv, hne⟩
    simp [needReload, hw, hrv, hne]
  · intro hne
    unfold needReload
    rw [hw]
    simp only [Option.isSome_some, Option.isNone_some, Bool.false_eq_true, if_false]
    by_cases hv : (match redis.version with
        | some rv => decide (w.version ≠ some rv)
        | Option.none => false) = true
    · rw [if_pos hv]
    · rw [if_neg hv, if_pos hne]
  · intro s hs hne
    have hv : w.version ≠ some (publishVersion now) := by
      rw [hs]
      intro hc
      exact hne (Option.some.inj hc).symm
    simp [needReload, hw, hv]

/-- Witness for C6's amended theorem: a worker cached at version "100"
reloads once token "101" (the next second's mutation) is published. -/
theorem worker_reloads_on_version_mismatch_witness :
    ((∃ rv, (⟨some "101", Option.none, some "/data/f.nt"⟩ : RedisState).version = some rv ∧
        (⟨some "g1", some "100", some (fileUri "/data/f.nt"), some "99"⟩ :
          WorkerCache).version ≠ some rv) →
      needReload ⟨some "g1", some "100", some (fileUri "/data/f.nt"), some "99"⟩
        ⟨some "101", Option.none, some "/data/f.nt"⟩ (fileUri "/data/f.nt") (some "99")
        = true) ∧
    needReload ⟨some "g1", some "100", some (fileUri "/data/f.nt"), some "99"⟩
      ⟨some "101", Option.none, some "/data/f.nt"⟩ (fileUri "/data/f.nt") (some "99")
      = true := by
  have h := worker_reloads_on_version_mismatch
    ⟨some "g1", some "100", some (fileUri "/data/f.nt"), some "99"⟩
    ⟨some "101", Option.none, some "/data/f.nt"⟩ (fileUri "/data/f.nt") (some "99")
    "g1" 101 (some "/data/f.nt") rfl
  exact ⟨h.1, h.1 ⟨"101", rfl, by decide⟩⟩

/-- Counterexample to C6 as stated: a second mutation within the same
wall-clock second republishes an equal (not strictly newer) token, and a
worker that reloaded at the first mutation does not reload before serving
the next request. -/
theorem version_token_same_second_cex :
    publishVersion 100 = "100" ∧
    (publishToRedis ⟨some "100", Option.none, some "/data/f.nt"⟩ 100
      (some "/data/f.nt")).version = some "100" ∧
    needReload ⟨some "g1", some "100", some (fileUri "/data/f.nt"), some "99"⟩
      ⟨some "100", Option.none, some "/data/f.nt"⟩ (fileUri "/data/f.nt") (some "99")
      = false := by decide

/-! ### C5: retry policy and failure reporting -/

/-- C5 (amended): a transient error is retried with backoff 2s, 4s, 8s
(base 2 on the retry counter, capped at 30s) and the fourth transient
failure is terminal, storing the original exception; exceeding the soft
time budget is never retried and surfaces as the distinct "timed out"
failure; any other exception is never retried and fails immediately.  The
terminal failure's message is the plain one exactly when the stored
exception does not look like a timeout (`isTimeoutFailure`) - a transient
`TimeoutError` that exhausts its retries is reported with the timed-out
message, not a non-timeout one (see the counterexample). -/
theorem task_retry_policy (e eOther : PyExc) (tid m : String)
    (he : e.isTransient = true) (hno : eOther.isTransient = false) :
    runTask taskMaxRetries 0 [some e, some e, some e, some e] =
      ([2, 4, 8], TaskFinal.failed e) ∧
    runTask taskMaxRetries 0 [some (PyExc.softTimeLimitExceeded m)] =
      ([], TaskFinal.failed (PyExc.softTimeLimitExceeded m)) ∧
    get_recipes_task_status tid
        (TaskState.failureState (some (PyExc.softTimeLimitExceeded m))) =
      internal_error_response "Recipe search task timed out." ∧
    runTask taskMaxRetries 0 [some eOther] = ([], TaskFinal.failed eOther) ∧
    (isTimeoutFailure e = false →
      get_recipes_task_status tid (TaskState.failureState (some e)) =
        internal_error_response ("Recipe search task failed: " ++ e.msg)) ∧
    (isTimeoutFailure e = true →
      get_recipes_task_status tid (TaskState.failureState (some e)) =
        internal_error_response "Recipe search task timed out.") := by
  refine ⟨?_, ?_, ?_, ?_, ?_, ?_⟩
  · simp [runTask, taskCountdown, taskMaxRetries, he]
  · simp [runTask, PyExc.isTransient]
  · simp [get_recipes_task_status, isTimeoutFailure]
  · simp [runTask, hno]
  · intro hto
    simp [get_recipes_task_status, hto]
  · intro hto
    simp [get_recipes_task_status, hto]

/-- Witness for C5's amended theorem: a persistent `ConnectionError` is
retried with 2s/4s/8s and then fails with the plain failure message; a
`ValueError` fails immediately. -/
theorem task_retry_policy_witness :
    runTask taskMaxRetries 0
        (List.replicate 4 (some (PyExc.connectionError "connection refused"))) =
      ([2, 4, 8], TaskFinal.failed (PyExc.connectionError "connection refused")) ∧
    get_recipes_task_status "t1"
        (TaskState.failureState (some (PyExc.connectionError "connection refused"))) =
      internal_error_response ("Recipe search task failed: " ++ "connection refused") ∧
    runTask taskMaxRetries 0 [some (PyExc.otherExc "ValueError" "boom")] =
      ([], TaskFinal.failed (PyExc.otherExc "ValueError" "boom")) := by
  have h := task_retry_policy (PyExc.connectionError "connection refused")
    (PyExc.otherExc "ValueError" "boom") "t1" "soft limit" (by decide) (by decide)
  exact ⟨h.1, h.2.2.2.2.1 (by decide), h.2.2.2.1⟩

/-- Counterexample to C5 as stated: a transient `TimeoutError` that
exhausts its three retries becomes a permanent FAILURE whose surfaced
message IS the distinct timed-out one ("Recipe search task timed out."),
not a non-timeout message - the status endpoint classifies by exception
type name and `TimeoutError` matches its timeout test. -/
theorem transient_timeout_message_cex :
    runTask taskMaxRetries 0
        (List.replicate 4 (some (PyExc.timeoutError "read timed out"))) =
      ([2, 4, 8], TaskFinal.failed (PyExc.timeoutError "read timed out")) ∧
    get_recipes_task_status "t2"
        (TaskState.failureState (some (PyExc.timeoutError "read timed out"))) =
      internal_error_response "Recipe search task timed out." := by decide

/-! ### C9: result normalization -/

theorem map_fst_zip_take {α β : Type} :
    ∀ (l1 : List α) (l2 : List β), (l1.zip l2).map Prod.fst = l1.take l2.length := by
  intro l1
  induction l1 with
  | nil => intro l2; simp
  | cons a l1 ih =>
    intro l2
    cases l2 with
    | nil => simp
    | cons b l2 => simp [List.zip_cons_cons, ih]

set_option maxHeartbeats 2000000 in
theorem normalizeEntry_fst (e : String × PyVal) : (normalizeEntry e).1 = e.1 := by
  unfold normalizeEntry
  split <;> rfl

/-- C9: the normalizer maps positional columns to the named fields of the
fixed order, simply omitting fields for which the row has no column
(first conjunct: the produced keys are exactly the first `row.length`
field names); a string boolean parses to true exactly when its lowercase
form is "true", "1" or "yes"; the numeric fields become floats through
`_parse_number`, which yields the `0.0` fallback instead of raising on
every value Python `float` rejects; and the aggregated ingredient string
is split on the `#` delimiter into a list. -/
theorem normalizer_shapes_rows (row : List Value) (s : String) (v : PyVal) (k : String)
    (hk : k ∈ (["time", "difficulty", "calories", "protein", "fat", "carbohydrates"] :
      List String))
    (hfail : pyFloatFails v = true) :
    (transform_results [row] =
      [normalize_recipe ((fieldOrder.zip row).map (fun kv => (kv.1, kv.2.toPy)))]) ∧
    ((normalize_recipe ((fieldOrder.zip row).map (fun kv => (kv.1, kv.2.toPy)))).map
      Prod.fst = fieldOrder.take row.length) ∧
    (parse_boolean (PyVal.str s) = true ↔
      (pyLower s = "true" ∨ pyLower s = "1" ∨ pyLower s = "yes")) ∧
    (parse_number v = 0) ∧
    (normalizeEntry ("ingredients", PyVal.str s) =
      ("ingredients", PyVal.listS (splitHash s))) ∧
    (normalizeEntry (k, v) = (k, PyVal.rat (parse_number v))) ∧
    (normalizeEntry ("vegan", v) = ("vegan", PyVal.bool (parse_boolean v))) ∧
    (normalizeEntry ("vegetarian", v) = ("vegetarian", PyVal.bool (parse_boolean v))) := by
  refine ⟨rfl, ?_, ?_, ?_, ?_, ?_, ?_, ?_⟩
  · rw [show (normalize_recipe ((fieldOrder.zip row).map (fun kv => (kv.1, kv.2.toPy)))).map
        Prod.fst = ((fieldOrder.zip row).map (fun kv => (kv.1, kv.2.toPy))).map Prod.fst by
      simp [normalize_recipe, normalizeEntry_fst]]
    rw [show ((fieldOrder.zip row).map (fun kv => (kv.1, kv.2.toPy))).map Prod.fst =
        (fieldOrder.zip row).map Prod.fst by simp]
    rw [map_fst_zip_take]
  · simp [parse_boolean]
  · cases v with
    | str t =>
      simp only [pyFloatFails, Option.isNone_iff_eq_none] at hfail
      simp [parse_number, hfail]
    | ent e => rfl
    | listS l => rfl
    | bool b => simp [pyFloatFails] at hfail
    | int n => simp [pyFloatFails] at hfail
    | rat q => simp [pyFloatFails] at hfail
  · cases v <;> rfl
  · fin_cases hk <;> cases v <;> rfl
  · cases v <;> rfl
  · cases v <;> rfl

/-- Witness for C9 at a concrete two-column row, the aggregate string
"2 eggs#200g flour", the unparsable value "n/a" and the field "time". -/
theorem normalizer_shapes_rows_witness :
    ((normalize_recipe ((fieldOrder.zip [Value.str "Pancakes", Value.str "http://x"]).map
      (fun kv => (kv.1, kv.2.toPy)))).map Prod.fst = ["name", "link"]) ∧
    parse_number (PyVal.str "n/a") = 0 ∧
    normalizeEntry ("ingredients", PyVal.str "2 eggs#200g flour") =
      ("ingredients", PyVal.listS ["2 eggs", "200g flour"]) ∧
    normalizeEntry ("time", PyVal.str "n/a") = ("time", PyVal.rat 0) ∧
    parse_boolean (PyVal.str "True") = true := by
  have h := normalizer_shapes_rows [Value.str "Pancakes", Value.str "http://x"]
    "2 eggs#200g flour" (PyVal.str "n/a") "time" (by decide) (by decide)
  refine ⟨?_, h.2.2.2.1, ?_, ?_, by decide⟩
  · rw [h.2.1]; rfl
  · rw [h.2.2.2.2.1]; decide
  · have h6 := h.2.2.2.2.2.1
    rw [h6, h.2.2.2.1]

end Fein
